import Mathlib

/-!
# The prime pipeline handlers of `eliquious/primes`

A shallow embedding of the six message handlers of package `main`
(`primes.go`, `output.go`): every `Handle` method becomes a function from the
handler's fields and the inbound message to an `Outcome`, which records the
handler's fields afterwards, the effects the call performed on its node and
its file, in program order, and whether the call ended in a runtime panic.
-/

namespace dproc

/-- Modelled from the spec: package `dproc` is not among the sources. A
message type is an open string tag (`dproc.MessageType("Prime")` converts a
string). -/
abbrev MessageType := String

/-- Modelled from the spec: the reserved control tag Start of package `dproc`.
The handlers only rely on it being different from the other tags, which the
Go compiler enforces (duplicate constants in one `switch` are rejected). -/
def MessageTypeStart : MessageType := "Start"

/-- Modelled from the spec: the reserved control tag Stop of package `dproc`. -/
def MessageTypeStop : MessageType := "Stop"

/-- Modelled from the spec: the lifecycle states of a node,
`Created`, `Running`, `Stopping`, `Killed`. -/
inductive State where
  | StateCreated
  | StateRunning
  | StateStopping
  | StateKilled
  deriving DecidableEq, Repr

/-- Modelled from the spec: the node handle a handler is called with. Of the
node only its diagnostic name is read by the handlers; `Children().Dispatch`
and `SetState` are recorded as effects of the call. -/
structure Process where
  Name : String
  deriving DecidableEq, Repr

end dproc

/-- An unsigned 64-bit quantity is a natural number below this bound. -/
def uint64Size : Nat := 2 ^ 64

/-- Subtraction of `uint64` values, wrapping around as in Go. -/
def subUint64 (a b : Nat) : Nat := (a + uint64Size - b % uint64Size) % uint64Size

/-- PrimeMessage stores the prime and its index. `Index` is a Go `int`, an
integer here; `Prime` is a `uint64`, a natural number below `uint64Size`. -/
structure PrimeMessage where
  Index : Int
  Prime : Nat
  deriving DecidableEq, Repr

/-- ExtendedPrimeMessage extends the prime message with additional fields. -/
structure ExtendedPrimeMessage where
  Index : Int
  Prime : Nat
  PrimeDiff : Nat
  LastDigit : Int
  Log : Float
  X : Float
  Y : Float
  Azimuth : Float
  DeltaAzimuth : Float
  Mod360 : Nat
  Revs : Nat

/-- The dynamic content of the `Value interface{}` field of a message: the
three payload shapes the handlers decode, the nil interface, and any other
dynamic type (identified by a tag). -/
inductive Value where
  | nil
  | primeMessage (m : PrimeMessage)
  | extendedPrimeMessage (m : ExtendedPrimeMessage)
  | string (s : String)
  | other (tag : Nat)

namespace dproc

/-- Modelled from the spec: a message is a type tag, a timestamp, a payload
and a forwarding flag. -/
structure Message where
  MsgType : MessageType
  Timestamp : Nat
  Value : Value
  Forward : Bool

end dproc

open dproc

/-- TypePrime is the message type for prime numbers. -/
def TypePrime : MessageType := "Prime"

/-- TypeExtendedPrime is the message type for extended prime numbers. -/
def TypeExtendedPrime : MessageType := "ExtendedPrime"

/-- TypeMapKey is the message type for map results. -/
def TypeMapKey : MessageType := "MapKey"

/-- An operand of a `Printf`/`Sprintf`/`Println` call. -/
inductive FmtArg where
  | int (i : Int)
  | uint (n : Nat)
  | float (x : Float)
  | str (s : String)

/-- The text handed to `WriteString`: a ready string, or the result of
`fmt.Sprintf` on a format and its operands (kept unevaluated, since the
operands include floating-point numbers). -/
inductive Text where
  | lit (s : String)
  | sprintf (format : String) (args : List FmtArg)

/-- What a call of `Handle` does to the outside, in program order. -/
inductive Effect where
  | log (format : String) (args : List FmtArg)
  | println (args : List FmtArg)
  | dispatch (msg : Message)
  | setState (s : State)
  | write (text : Text)
  | close

/-- The result of one call of `Handle`: the handler's fields afterwards, the
effects performed up to the return or the panic, and whether it panicked. -/
structure Outcome (σ : Type) where
  handler : σ
  effects : List Effect
  panicked : Bool

/-- The messages dispatched to the children, in order. -/
def dispatched : List Effect → List Message
  | [] => []
  | Effect.dispatch m :: es => m :: dispatched es
  | _ :: es => dispatched es

/-- The texts written to the file, in order. -/
def written : List Effect → List Text
  | [] => []
  | Effect.write t :: es => t :: written es
  | _ :: es => written es

/-- The lifecycle states set on the node, in order. -/
def statesSet : List Effect → List State
  | [] => []
  | Effect.setState s :: es => s :: statesSet es
  | _ :: es => statesSet es

/-- The effects that act on the node or the file: everything but the
diagnostics written by `log.Printf` and `fmt.Println`. -/
def observable : List Effect → List Effect
  | [] => []
  | Effect.log _ _ :: es => observable es
  | Effect.println _ :: es => observable es
  | e :: es => e :: observable es

/-! ## primes.go -/

/-- PrimeGenerator generates primes below a given limit. -/
structure PrimeGenerator where
  Limit : Nat
  deriving DecidableEq, Repr

/-- The loop `for i, p := range primes` of `PrimeGenerator.Handle`, from
index `i` on; `now i` is the clock reading taken in iteration `i`. The test
`i%(numPrimes/10) == 0` divides by zero, a runtime panic, when
`numPrimes/10` is zero. -/
def PrimeGenerator.loop (now : Nat → Nat) (proc : Process) (numPrimes : Nat) :
    Nat → List Nat → List Effect × Bool
  | _, [] => ([], false)
  | i, p :: rest =>
    if numPrimes / 10 = 0 then ([], true)
    else
      let progress : List Effect :=
        if i % (numPrimes / 10) = 0 then
          [Effect.log "[%s] - Processing primes - %.0f%%"
            [FmtArg.str proc.Name,
             FmtArg.float (Float.ofNat i / Float.ofNat numPrimes * 100)]]
        else []
      let send := Effect.dispatch
        { Forward := false, MsgType := TypePrime, Timestamp := now i,
          Value := Value.primeMessage { Index := (i : Int), Prime := p } }
      let tail := PrimeGenerator.loop now proc numPrimes (i + 1) rest
      (progress ++ send :: tail.1, tail.2)

/-- Handle sends prime messages to all the child processes. `Primes` is the
sieve `prime.Primes` of the library `github.com/kavehmz/prime`. -/
def PrimeGenerator.Handle (Primes : Nat → List Nat) (now : Nat → Nat)
    (proc : Process) (p : PrimeGenerator) (msg : Message) : Outcome PrimeGenerator :=
  if msg.MsgType = MessageTypeStart then
    let primes := Primes p.Limit
    let numPrimes := primes.length
    let head : List Effect :=
      [Effect.log "[%s] - Starting..." [FmtArg.str proc.Name],
       Effect.log "[%s] - Finding primes..." [FmtArg.str proc.Name],
       Effect.log "[%s] - Found %d primes" [FmtArg.str proc.Name, FmtArg.int numPrimes]]
    let body := PrimeGenerator.loop now proc numPrimes 0 primes
    if body.2 then
      { handler := p, effects := head ++ body.1, panicked := true }
    else
      { handler := p,
        effects := head ++ body.1 ++
          [Effect.setState State.StateKilled,
           Effect.log "[%s] - Exiting..." [FmtArg.str proc.Name]],
        panicked := false }
  else
    { handler := p,
      effects := [Effect.println [FmtArg.str "Unknown message type: ", FmtArg.str msg.MsgType]],
      panicked := false }

/-- PrimeExtensionProcess adds data to a prime before passing it on. -/
structure PrimeExtensionProcess where
  PreviousPrime : PrimeMessage
  PreviousAzm : Float

/-- The last decimal digit of `p`: the last rune of `strconv.FormatUint(p, 10)`
minus 48. `none` stands for the index `len(s)-1` being out of range. -/
def lastDigit (p : Nat) : Option Int :=
  match (Nat.toDigits 10 p).getLast? with
  | some c => some ((c.toNat : Int) - 48)
  | none => none

/-- The constant `math.Pi`. -/
def mathPi : Float := 3.14159265358979323846264338327950288419716939937510582097494459

/-- The azimuth `pAzm` that `PrimeExtensionProcess.Handle` computes for a
prime, in degrees and made non-negative. -/
def primeAzimuth (prime : Nat) : Float :=
  let pRad := Float.ofNat prime / 180.0 * mathPi
  let pLog := Float.log10 (Float.ofNat prime)
  let pX := pLog * Float.cos pRad
  let pY := pLog * Float.sin pRad
  let pAzm := Float.atan2 pY pX * 180 / mathPi
  if pAzm < 0 then pAzm + 360 else pAzm

/-- The `ExtendedPrimeMessage` literal that `PrimeExtensionProcess.Handle`
builds for the decoded message `m`; `digit` is the value of
`lastDigit(m.Prime)`. -/
def PrimeExtensionProcess.extend (p : PrimeExtensionProcess) (m : PrimeMessage)
    (digit : Int) : ExtendedPrimeMessage :=
  let pRad := Float.ofNat m.Prime / 180.0 * mathPi
  let pLog := Float.log10 (Float.ofNat m.Prime)
  let pX := pLog * Float.cos pRad
  let pY := pLog * Float.sin pRad
  let pAzm := primeAzimuth m.Prime
  let deltaAngle := pAzm - p.PreviousAzm
  { Index := m.Index, Prime := m.Prime,
    PrimeDiff := subUint64 m.Prime p.PreviousPrime.Prime,
    LastDigit := digit, Log := pLog, X := pX, Y := pY,
    Azimuth := pAzm,
    DeltaAzimuth := if deltaAngle < 0 then deltaAngle + 360 else deltaAngle,
    Mod360 := m.Prime % 360, Revs := m.Prime / 360 }

/-- Handle sends prime messages to all the child processes. -/
def PrimeExtensionProcess.Handle (now : Nat) (proc : Process)
    (p : PrimeExtensionProcess) (msg : Message) : Outcome PrimeExtensionProcess :=
  if msg.MsgType = MessageTypeStart then
    { handler := p, effects := [Effect.log "[%s] - Starting..." [FmtArg.str proc.Name]],
      panicked := false }
  else if msg.MsgType = MessageTypeStop then
    { handler := p, effects := [Effect.log "[%s] - Exiting..." [FmtArg.str proc.Name]],
      panicked := false }
  else if msg.MsgType = TypePrime then
    match msg.Value with
    | Value.primeMessage m =>
      match lastDigit m.Prime with
      | none => { handler := p, effects := [], panicked := true }
      | some digit =>
        { handler := { PreviousPrime := m, PreviousAzm := primeAzimuth m.Prime },
          effects := [Effect.dispatch
            { Forward := false, MsgType := TypeExtendedPrime, Timestamp := now,
              Value := Value.extendedPrimeMessage (p.extend m digit) }],
          panicked := false }
    | _ => { handler := p, effects := [], panicked := true }
  else
    { handler := p,
      effects := [Effect.log "[%s] - Unknown message type: %s"
        [FmtArg.str proc.Name, FmtArg.str msg.MsgType]],
      panicked := false }

/-- ExtendedPrimeMapperFunc maps ExtendedPrimeMessages to strings. -/
abbrev ExtendedPrimeMapperFunc := ExtendedPrimeMessage → String

/-- PrimeMapperProcess maps data. -/
structure PrimeMapperProcess where
  MapperFunc : ExtendedPrimeMapperFunc

/-- Handle sends prime messages to all the child processes. -/
def PrimeMapperProcess.Handle (now : Nat) (proc : Process)
    (p : PrimeMapperProcess) (msg : Message) : Outcome PrimeMapperProcess :=
  if msg.MsgType = MessageTypeStart then
    { handler := p, effects := [Effect.log "[%s] - Starting..." [FmtArg.str proc.Name]],
      panicked := false }
  else if msg.MsgType = MessageTypeStop then
    { handler := p, effects := [Effect.log "[%s] - Exiting..." [FmtArg.str proc.Name]],
      panicked := false }
  else if msg.MsgType = TypeExtendedPrime then
    match msg.Value with
    | Value.extendedPrimeMessage m =>
      let key := p.MapperFunc m
      { handler := p,
        effects := [Effect.dispatch
          { Forward := false, MsgType := TypeMapKey, Timestamp := now,
            Value := Value.string key }],
        panicked := false }
    | _ => { handler := p, effects := [], panicked := true }
  else
    { handler := p,
      effects := [Effect.log "[%s] - Unknown message type: %s"
        [FmtArg.str proc.Name, FmtArg.str msg.MsgType]],
      panicked := false }

/-! ## output.go -/

/-- PrimeOutput writes a log entry for each prime. `Writer` names the file
the handle was opened on. -/
structure PrimeOutput where
  Writer : String
  deriving DecidableEq, Repr

/-- NewPrimeOutput creates a new PrimeOutput. -/
def NewPrimeOutput (filename : String) : PrimeOutput := { Writer := filename }

/-- Handle writes primes info to file. -/
def PrimeOutput.Handle (proc : Process) (o : PrimeOutput) (msg : Message) :
    Outcome PrimeOutput :=
  if msg.MsgType = MessageTypeStart then
    { handler := o,
      effects :=
        [Effect.log "[%s] - Starting..." [FmtArg.str proc.Name],
         Effect.log "[%s] - Writing output header..." [FmtArg.str proc.Name],
         Effect.write (Text.lit
           "index,prime,diff,lastDigit,pLog,pX,pY,pAzm,deltaAzm,mod360,revs\n")],
      panicked := false }
  else if msg.MsgType = TypeExtendedPrime then
    match msg.Value with
    | Value.extendedPrimeMessage extMsg =>
      { handler := o,
        effects := [Effect.write (Text.sprintf "%d,%d,%d,%d,%.5f,%.5f,%.5f,%.f,%.f,%d,%d\n"
          [FmtArg.int extMsg.Index, FmtArg.uint extMsg.Prime, FmtArg.uint extMsg.PrimeDiff,
           FmtArg.int extMsg.LastDigit, FmtArg.float extMsg.Log, FmtArg.float extMsg.X,
           FmtArg.float extMsg.Y, FmtArg.float extMsg.Azimuth,
           FmtArg.float extMsg.DeltaAzimuth, FmtArg.uint extMsg.Mod360,
           FmtArg.uint extMsg.Revs])],
        panicked := false }
    | _ => { handler := o, effects := [], panicked := true }
  else if msg.MsgType = MessageTypeStop then
    { handler := o,
      effects := [Effect.close, Effect.log "[%s] - Exiting..." [FmtArg.str proc.Name]],
      panicked := false }
  else
    { handler := o,
      effects := [Effect.log "[%s] - Unknown message type: %s"
        [FmtArg.str proc.Name, FmtArg.str msg.MsgType]],
      panicked := false }

/-- PrimeMapperOutput writes an entry for each mapper key and count. `Data`
is the Go map, kept as a list of key/value pairs with pairwise different
keys; `none` is the nil map. The counts are Go `int`s, kept as unbounded
integers: the 2^63 increments that would wrap one are beyond any run. -/
structure PrimeMapperOutput where
  KeyHeader : String
  Writer : String
  Data : Option (List (String × Int))
  deriving DecidableEq, Repr

/-- NewPrimeMapperOutput creates a new PrimeMapperOutput. -/
def NewPrimeMapperOutput (filename keyHeader : String) : PrimeMapperOutput :=
  { KeyHeader := keyHeader, Writer := filename, Data := some [] }

/-- The statement `m[key]++` on a non-nil map: a missing key reads as zero. -/
def mapIncrement (key : String) : List (String × Int) → List (String × Int)
  | [] => [(key, 0 + 1)]
  | (k, v) :: rest =>
    if k = key then (k, v + 1) :: rest else (k, v) :: mapIncrement key rest

/-- The library function `sort.Strings`: sorts into increasing order. Go
compares strings byte by byte, which on UTF-8 text is the order of the code
points used here. -/
def sortStrings (lines : List String) : List String :=
  lines.insertionSort (fun a b => a ≤ b)

/-- The call `fmt.Sprintf("%s,%d\n", k, v)`. -/
def mapperLine (k : String) (v : Int) : String :=
  k ++ "," ++ toString v ++ "\n"

/-- Handle counts map results then writes data to file. `iter` is the order
in which `range` visits the entries of a map, which Go leaves unspecified. -/
def PrimeMapperOutput.Handle (iter : List (String × Int) → List (String × Int))
    (proc : Process) (o : PrimeMapperOutput) (msg : Message) : Outcome PrimeMapperOutput :=
  if msg.MsgType = MessageTypeStart then
    { handler := o,
      effects :=
        [Effect.log "[%s] - Starting..." [FmtArg.str proc.Name],
         Effect.log "[%s] - Writing output header..." [FmtArg.str proc.Name],
         Effect.write (Text.lit (o.KeyHeader ++ ",count\n"))],
      panicked := false }
  else if msg.MsgType = TypeMapKey then
    match msg.Value with
    | Value.string key =>
      match o.Data with
      | some data =>
        { handler := { o with Data := some (mapIncrement key data) }, effects := [],
          panicked := false }
      | none => { handler := o, effects := [], panicked := true }
    | _ => { handler := o, effects := [], panicked := true }
  else if msg.MsgType = MessageTypeStop then
    let data := o.Data.getD []
    let lines0 : List String := List.replicate data.length ""
    let lines := lines0 ++ (iter data).map (fun kv => mapperLine kv.1 kv.2)
    let sorted := sortStrings lines
    { handler := o,
      effects :=
        [Effect.write (Text.lit (String.join sorted)),
         Effect.close,
         Effect.log "[%s] - Exiting..." [FmtArg.str proc.Name]],
      panicked := false }
  else
    { handler := o,
      effects := [Effect.log "[%s] - Unknown message type: %s"
        [FmtArg.str proc.Name, FmtArg.str msg.MsgType]],
      panicked := false }

/-- PrimeRevSizeOutput writes a log entry for each prime revolution. The
`uint64` fields are natural numbers, subtracted with wrap-around; `RevCount`
is a Go `int`, kept as an unbounded integer. -/
structure PrimeRevSizeOutput where
  Writer : String
  FirstRevPrime : Nat
  LastRev : Nat
  LastPrime : Nat
  RevCount : Int
  RevStartAzm : Float

/-- NewPrimeRevSizeOutput creates a new PrimeRevSizeOutput. -/
def NewPrimeRevSizeOutput (filename : String) : PrimeRevSizeOutput :=
  { Writer := filename, FirstRevPrime := 2, LastRev := 0, LastPrime := 2, RevCount := 0,
    RevStartAzm := 2.0 }

/-- The row `fmt.Sprintf("%d,%d,%d,%.f,%d\n", ...)` that `PrimeRevSizeOutput`
writes from its fields. -/
def PrimeRevSizeOutput.row (o : PrimeRevSizeOutput) : Text :=
  Text.sprintf "%d,%d,%d,%.f,%d\n"
    [FmtArg.uint o.LastRev, FmtArg.uint o.FirstRevPrime,
     FmtArg.uint (subUint64 o.LastPrime o.FirstRevPrime),
     FmtArg.float o.RevStartAzm, FmtArg.int o.RevCount]

/-- Handle writes primes info to file. -/
def PrimeRevSizeOutput.Handle (proc : Process) (o : PrimeRevSizeOutput) (msg : Message) :
    Outcome PrimeRevSizeOutput :=
  if msg.MsgType = MessageTypeStart then
    { handler := o,
      effects :=
        [Effect.log "[%s] - Starting..." [FmtArg.str proc.Name],
         Effect.log "[%s] - Writing output header..." [FmtArg.str proc.Name],
         Effect.write (Text.lit "rev,start,span,azm,count\n")],
      panicked := false }
  else if msg.MsgType = TypeExtendedPrime then
    match msg.Value with
    | Value.extendedPrimeMessage extMsg =>
      if extMsg.Revs ≠ o.LastRev then
        { handler :=
            { o with FirstRevPrime := extMsg.Prime, RevStartAzm := extMsg.Azimuth,
                     LastRev := extMsg.Revs, LastPrime := extMsg.Prime, RevCount := 0 + 1 },
          effects := [Effect.write o.row],
          panicked := false }
      else
        { handler := { o with LastPrime := extMsg.Prime, RevCount := o.RevCount + 1 },
          effects := [],
          panicked := false }
    | _ => { handler := o, effects := [], panicked := true }
  else if msg.MsgType = MessageTypeStop then
    { handler := o,
      effects := [Effect.write o.row, Effect.close,
                  Effect.log "[%s] - Exiting..." [FmtArg.str proc.Name]],
      panicked := false }
  else
    { handler := o,
      effects := [Effect.log "[%s] - Unknown message type: %s"
        [FmtArg.str proc.Name, FmtArg.str msg.MsgType]],
      panicked := false }

/-- Modelled from the spec: the worker loop of a node of package `dproc`,
which is not among the sources. `Handle` is invoked once per inbound
delivery, in delivery order; a panic ends the worker. -/
def runHandler {σ α : Type} (handle : σ → α → Outcome σ) : σ → List α → Outcome σ
  | s, [] => { handler := s, effects := [], panicked := false }
  | s, m :: ms =>
    let o := handle s m
    if o.panicked then o
    else
      let r := runHandler handle o.handler ms
      { handler := r.handler, effects := o.effects ++ r.effects, panicked := r.panicked }

/-- A control message of type `t`; it carries no payload. -/
def controlMessage (t : MessageType) : Message :=
  { MsgType := t, Timestamp := 0, Value := Value.nil, Forward := false }

/-! ## Definitions used to state and prove the properties -/

/-- The message `PrimeGenerator` dispatches in iteration `k` for the prime `q`. -/
def primeMessageAt (clock : Nat → Nat) (k q : Nat) : Message :=
  { Forward := false, MsgType := TypePrime, Timestamp := clock k,
    Value := Value.primeMessage { Index := (k : Int), Prime := q } }

/-- A message of a type no handler knows, carrying a payload no handler decodes. -/
def strayMessage : Message :=
  { MsgType := "Composite", Timestamp := 7, Value := Value.other 1, Forward := true }

/-- An `ExtendedPrimeMessage` with the integer fields of the prime 7 at index 3. -/
def sampleExtended : ExtendedPrimeMessage :=
  { Index := 3, Prime := 7, PrimeDiff := 2, LastDigit := 7, Log := 0.845, X := 0.839,
    Y := 0.103, Azimuth := 7.0, DeltaAzimuth := 2.0, Mod360 := 7, Revs := 0 }

/-- The payload of a message of type ExtendedPrime that carries an
`ExtendedPrimeMessage`; `none` for every other message. -/
def extendedPayload (msg : Message) : Option ExtendedPrimeMessage :=
  if msg.MsgType = TypeExtendedPrime then
    match msg.Value with
    | Value.extendedPrimeMessage m => some m
    | _ => none
  else none

/-- A delivery to a `PrimeMapperProcess`: the inbound message together with
the clock reading taken while it is handled. -/
def PrimeMapperProcess.deliver (proc : Process) (p : PrimeMapperProcess)
    (d : Nat × Message) : Outcome PrimeMapperProcess :=
  PrimeMapperProcess.Handle d.1 proc p d.2

/-- The MapKey message sent for the payload `m` at clock reading `now`. -/
def mapKeyMessage (f : ExtendedPrimeMapperFunc) (now : Nat) (m : ExtendedPrimeMessage) :
    Message :=
  { MsgType := TypeMapKey, Timestamp := now, Value := Value.string (f m), Forward := false }

/-- A message of type ExtendedPrime carrying `sampleExtended`. -/
def sampleExtendedMessage : Message :=
  { MsgType := TypeExtendedPrime, Timestamp := 8,
    Value := Value.extendedPrimeMessage sampleExtended, Forward := false }

/-- The value a Go map read `m[key]` yields: zero for a missing key. -/
def mapGet (key : String) : List (String × Int) → Int
  | [] => 0
  | (k, v) :: rest => if k = key then v else mapGet key rest

/-- The map after the statements `m[k]++` for the keys of `ks`, in order. -/
def countKeys (ks : List String) (d : List (String × Int)) : List (String × Int) :=
  ks.foldl (fun acc k => mapIncrement k acc) d

/-- The line expected for the key `k` among the received keys
`ks`: the key, a comma, the number of occurrences of the key, a newline. -/
def countLine (ks : List String) (k : String) : String :=
  k ++ "," ++ toString (ks.count k) ++ "\n"

/-- One line per distinct key received. -/
def expectedLines (ks : List String) : List String :=
  ks.dedup.map (countLine ks)

/-- The payload of a message of type MapKey that carries a string; `none`
for every other message. -/
def stringPayload (msg : Message) : Option String :=
  if msg.MsgType = TypeMapKey then
    match msg.Value with
    | Value.string s => some s
    | _ => none
  else none

/-- A message of type MapKey carrying the key `k`. -/
def mapKeyOf (k : String) : Message :=
  { MsgType := TypeMapKey, Timestamp := 3, Value := Value.string k, Forward := false }

/-- The integer columns of a data row of `rev_size.csv`. -/
structure RevRow where
  rev : Nat
  start : Nat
  span : Nat
  count : Int
  deriving DecidableEq, Repr

/-- The integer columns of a written text, when the text is a data row
`Sprintf("%d,%d,%d,%.f,%d\n", rev, start, span, azm, count)`. -/
def intColumns : Text → Option RevRow
  | Text.sprintf format [FmtArg.uint rev, FmtArg.uint start, FmtArg.uint span,
      FmtArg.float _, FmtArg.int count] =>
    if format = "%d,%d,%d,%.f,%d\n" then
      some { rev := rev, start := start, span := span, count := count }
    else none
  | _ => none

/-- The messages received in revolution `r`. -/
def revolution (es : List ExtendedPrimeMessage) (r : Nat) : List ExtendedPrimeMessage :=
  es.filter (fun e => e.Revs = r)

/-- The smallest prime among the messages `g`. -/
def smallestPrime (g : List ExtendedPrimeMessage) : Nat :=
  ((g.map (fun e => e.Prime)).min?).getD 0

/-- The largest prime among the messages `g`. -/
def largestPrime (g : List ExtendedPrimeMessage) : Nat :=
  ((g.map (fun e => e.Prime)).max?).getD 0

/-- The row expected for revolution `r`: the revolution, the
smallest prime received in it, the largest minus the smallest prime received
in it, and the number of messages received in it. -/
def expectedRow (es : List ExtendedPrimeMessage) (r : Nat) : RevRow :=
  { rev := r,
    start := smallestPrime (revolution es r),
    span := largestPrime (revolution es r) - smallestPrime (revolution es r),
    count := ((revolution es r).length : Int) }

/-- One row per distinct revolution of the sequence. -/
def expectedRows (es : List ExtendedPrimeMessage) : List RevRow :=
  (es.map (fun e => e.Revs)).dedup.map (expectedRow es)

/-- The fields of a `PrimeRevSizeOutput` after the ExtendedPrime case of
`Handle` has run on the payload `e`. -/
def PrimeRevSizeOutput.step (o : PrimeRevSizeOutput) (e : ExtendedPrimeMessage) :
    PrimeRevSizeOutput :=
  if e.Revs ≠ o.LastRev then
    { o with FirstRevPrime := e.Prime, RevStartAzm := e.Azimuth, LastRev := e.Revs,
             LastPrime := e.Prime, RevCount := 0 + 1 }
  else { o with LastPrime := e.Prime, RevCount := o.RevCount + 1 }

/-- The rows written while the payloads `es` are handled one after the other,
followed by the row written on Stop. -/
def PrimeRevSizeOutput.rows : PrimeRevSizeOutput → List ExtendedPrimeMessage → List Text
  | o, [] => [o.row]
  | o, e :: es =>
    if e.Revs ≠ o.LastRev then o.row :: PrimeRevSizeOutput.rows (o.step e) es
    else PrimeRevSizeOutput.rows (o.step e) es

/-- The conditions on the payloads received: strictly increasing
primes that fit a `uint64`, each with `Revs = Prime / 360`. -/
def IncreasingPrimes (es : List ExtendedPrimeMessage) : Prop :=
  (es.map (fun e => e.Prime)).Pairwise (fun a b => a < b) ∧
  (∀ e ∈ es, e.Revs = e.Prime / 360) ∧
  (∀ e ∈ es, e.Prime < uint64Size)

/-- A payload with the integer fields of the prime `q` at index `i`. -/
def payloadOf (i q : Nat) : ExtendedPrimeMessage :=
  { Index := (i : Int), Prime := q, PrimeDiff := 0, LastDigit := ((q % 10 : Nat) : Int),
    Log := 0.0, X := 0.0, Y := 0.0, Azimuth := 0.0, DeltaAzimuth := 0.0,
    Mod360 := q % 360, Revs := q / 360 }

/-- A message of type ExtendedPrime carrying `payloadOf i q`. -/
def extendedOf (i q : Nat) : Message :=
  { MsgType := TypeExtendedPrime, Timestamp := i,
    Value := Value.extendedPrimeMessage (payloadOf i q), Forward := false }

/-- The primes 2, 3, 359 of revolution 0, 367 and 373 of revolution 1 and 727
of revolution 2. -/
def sampleRevolutions : List Message :=
  [extendedOf 0 2, extendedOf 1 3, extendedOf 71 359, extendedOf 72 367, extendedOf 73 373,
   extendedOf 128 727]

/-- The integer fields of the payload of an ExtendedPrime message: Index,
Prime, PrimeDiff, LastDigit, Mod360 and Revs. -/
def integerFields (msg : Message) : Option (Int × Nat × Nat × Int × Nat × Nat) :=
  match msg.Value with
  | Value.extendedPrimeMessage e =>
    some (e.Index, e.Prime, e.PrimeDiff, e.LastDigit, e.Mod360, e.Revs)
  | _ => none

/-! ## The child list of a node -/

namespace dproc

/-- Modelled from the spec: a node is live until it begins to stop. Once a
node is Stopping no further domain messages are delivered to it, and Killed
is terminal; a node that is Created or Running takes messages. -/
def State.isLive : State → Bool
  | State.StateCreated => true
  | State.StateRunning => true
  | State.StateStopping => false
  | State.StateKilled => false

/-- Modelled from the spec: a member of a `ProcessList` as `Dispatch` sees
it. Package `dproc` is not among the sources; of a member its name, its
private, ordered inbound message sequence (oldest first) and its lifecycle
state are kept. -/
structure Member where
  Name : String
  inbox : List Message
  Lifecycle : State

/-- Modelled from the spec: `ProcessList`, an ordered sibling group. -/
abbrev ProcessList := List Member

/-- Modelled from the spec: `ProcessList.Dispatch` of package `dproc`, which
is not among the sources. It delivers `msg` to every live member, going
through the list in order and appending the message to the inbound sequence
of each member that is live; a member that is Stopping or Killed is passed
over; an empty list makes it a no-op. -/
def ProcessList.Dispatch : ProcessList → Message → ProcessList
  | [], _ => []
  | m :: rest, msg =>
    (if m.Lifecycle.isLive then { m with inbox := m.inbox ++ [msg] } else m) ::
      ProcessList.Dispatch rest msg

end dproc

/-- What a member holds after the messages `msgs` have been dispatched to its
list: a live member has them appended to its inbound sequence, in order; a
member that is Stopping or Killed is unchanged. -/
def receive (msgs : List Message) (m : Member) : Member :=
  if m.Lifecycle.isLive then { m with inbox := m.inbox ++ msgs } else m

/-- The calls `proc.Children().Dispatch(msg)` of one call of `Handle`, read
off its effects, carried out in program order on the child list of the node. -/
def deliverDispatches (children : ProcessList) : List Effect → ProcessList
  | [] => children
  | Effect.dispatch msg :: es => deliverDispatches (ProcessList.Dispatch children msg) es
  | _ :: es => deliverDispatches children es

/-- Two running children with empty inbound sequences. -/
def sampleChildren : ProcessList :=
  [{ Name := "Prime Output", inbox := [], Lifecycle := State.StateRunning },
   { Name := "Rev Size Prime Output", inbox := [], Lifecycle := State.StateRunning }]

/-- A running child and a child that has begun to stop, both with empty
inbound sequences. -/
def stoppingChildren : ProcessList :=
  [{ Name := "Prime Output", inbox := [], Lifecycle := State.StateRunning },
   { Name := "Rev Size Prime Output", inbox := [], Lifecycle := State.StateStopping }]

/-! ## main.go and the mapper functions -/

/-- PrimeAzimuthMapperFunc maps ExtendedPrimeMessages to their azimuth.
`sprintf` is the library function `fmt.Sprintf`. -/
def PrimeAzimuthMapperFunc (sprintf : String → List FmtArg → String) :
    ExtendedPrimeMapperFunc :=
  fun msg => sprintf "%.f" [FmtArg.float msg.Azimuth]

/-- LastDigitPrimeAzimuthMapperFunc maps ExtendedPrimeMessages to their
azimuth and last digit. -/
def LastDigitPrimeAzimuthMapperFunc (sprintf : String → List FmtArg → String) :
    ExtendedPrimeMapperFunc :=
  fun msg => sprintf "%d,%.f" [FmtArg.int msg.LastDigit, FmtArg.float msg.Azimuth]

/-- LastDigitPrimeAzimuthDeltaMapperFunc maps ExtendedPrimeMessages to their
last digit, azimuth and gap. -/
def LastDigitPrimeAzimuthDeltaMapperFunc (sprintf : String → List FmtArg → String) :
    ExtendedPrimeMapperFunc :=
  fun msg => sprintf "%d,%.f,%d"
    [FmtArg.int msg.LastDigit, FmtArg.float msg.Azimuth, FmtArg.uint msg.PrimeDiff]

/-- LastDigitPrimeDeltaMapperFunc maps ExtendedPrimeMessages to their last
digit and gap. -/
def LastDigitPrimeDeltaMapperFunc (sprintf : String → List FmtArg → String) :
    ExtendedPrimeMapperFunc :=
  fun msg => sprintf "%d,%d" [FmtArg.int msg.LastDigit, FmtArg.uint msg.PrimeDiff]

/-- DeltaLastDigitAzimuthMapperFunc maps ExtendedPrimeMessages to their gap,
last digit and azimuth. -/
def DeltaLastDigitAzimuthMapperFunc (sprintf : String → List FmtArg → String) :
    ExtendedPrimeMapperFunc :=
  fun msg => sprintf "% 3d,%d,%.f"
    [FmtArg.uint msg.PrimeDiff, FmtArg.int msg.LastDigit, FmtArg.float msg.Azimuth]

/-- RevMapperFunc maps ExtendedPrimeMessages to their revolution. -/
def RevMapperFunc (sprintf : String → List FmtArg → String) : ExtendedPrimeMapperFunc :=
  fun msg => sprintf "%04d" [FmtArg.uint msg.Revs]

/-- LastDigitAzimuthPreviousAzimuthMapperFunc maps ExtendedPrimeMessages to
their last digit, azimuth and previous azimuth. -/
def LastDigitAzimuthPreviousAzimuthMapperFunc (sprintf : String → List FmtArg → String) :
    ExtendedPrimeMapperFunc :=
  fun msg =>
    let prevAzm := msg.Azimuth - msg.DeltaAzimuth
    sprintf "% 3d,%.f,%.f"
      [FmtArg.int msg.LastDigit, FmtArg.float msg.Azimuth, FmtArg.float prevAzm]

/-- The handlers of this repository: the six types that implement the
handler capability a node wraps. -/
inductive Handler where
  | generator (p : PrimeGenerator)
  | extension (p : PrimeExtensionProcess)
  | mapper (p : PrimeMapperProcess)
  | output (o : PrimeOutput)
  | mapperOutput (o : PrimeMapperOutput)
  | revSizeOutput (o : PrimeRevSizeOutput)

/-- The type of a handler, without its fields. -/
inductive HandlerKind where
  | generator
  | extension
  | mapper
  | output
  | mapperOutput
  | revSizeOutput
  deriving DecidableEq, Repr

/-- The type of the handler `h`. -/
def Handler.kind : Handler → HandlerKind
  | Handler.generator _ => HandlerKind.generator
  | Handler.extension _ => HandlerKind.extension
  | Handler.mapper _ => HandlerKind.mapper
  | Handler.output _ => HandlerKind.output
  | Handler.mapperOutput _ => HandlerKind.mapperOutput
  | Handler.revSizeOutput _ => HandlerKind.revSizeOutput

/-- The output writers: the handlers that write a file. -/
def HandlerKind.isOutputWriter : HandlerKind → Bool
  | HandlerKind.output => true
  | HandlerKind.mapperOutput => true
  | HandlerKind.revSizeOutput => true
  | _ => false

/-- The method `Handle` of whichever handler a node wraps. `Primes` is the
sieve, `clock` and `now` are the clock readings taken by the generator and by
the other handlers, `iter` is the iteration order of maps. -/
def Handler.Handle (Primes : Nat → List Nat) (clock : Nat → Nat) (now : Nat)
    (iter : List (String × Int) → List (String × Int)) (proc : Process)
    (h : Handler) (msg : Message) : Outcome Handler :=
  match h with
  | Handler.generator p =>
    let o := PrimeGenerator.Handle Primes clock proc p msg
    { handler := Handler.generator o.handler, effects := o.effects, panicked := o.panicked }
  | Handler.extension p =>
    let o := PrimeExtensionProcess.Handle now proc p msg
    { handler := Handler.extension o.handler, effects := o.effects, panicked := o.panicked }
  | Handler.mapper p =>
    let o := PrimeMapperProcess.Handle now proc p msg
    { handler := Handler.mapper o.handler, effects := o.effects, panicked := o.panicked }
  | Handler.output p =>
    let o := PrimeOutput.Handle proc p msg
    { handler := Handler.output o.handler, effects := o.effects, panicked := o.panicked }
  | Handler.mapperOutput p =>
    let o := PrimeMapperOutput.Handle iter proc p msg
    { handler := Handler.mapperOutput o.handler, effects := o.effects,
      panicked := o.panicked }
  | Handler.revSizeOutput p =>
    let o := PrimeRevSizeOutput.Handle proc p msg
    { handler := Handler.revSizeOutput o.handler, effects := o.effects,
      panicked := o.panicked }

/-- The map of a `PrimeMapperOutput` has been made: the state in which
`NewPrimeMapperOutput` leaves it and every call of `Handle` keeps it. -/
def Handler.mapMade : Handler → Bool
  | Handler.mapperOutput o => o.Data.isSome
  | _ => true

/-- The effects of a call that took the `default` branch of the `switch`:
one line of diagnostics about an unknown message type. -/
def reportsUnknownType : List Effect → Bool
  | [Effect.log format _] => format == "[%s] - Unknown message type: %s"
  | [Effect.println (FmtArg.str text :: _)] => text == "Unknown message type: "
  | _ => false

namespace dproc

/-- Modelled from the spec: a node of the process tree as
`dproc.NewDefaultProcess(ctx, name, handler, children)` builds it: a name, a
handler and an owned list of children fixed at construction. -/
inductive Node where
  | NewDefaultProcess (Name : String) (handler : Handler) (children : List Node)

end dproc

/-- The name of a node. -/
def dproc.Node.Name : Node → String
  | Node.NewDefaultProcess name _ _ => name

/-- The handler of a node. -/
def dproc.Node.handler : Node → Handler
  | Node.NewDefaultProcess _ h _ => h

/-- The children of a node. -/
def dproc.Node.Children : Node → List Node
  | Node.NewDefaultProcess _ _ cs => cs

mutual
/-- The nodes of the tree below and including a node, parents first. -/
def dproc.Node.nodes : Node → List Node
  | Node.NewDefaultProcess name h cs =>
    Node.NewDefaultProcess name h cs :: dproc.Node.nodesOfList cs
/-- The nodes of the trees of a child list. -/
def dproc.Node.nodesOfList : List Node → List Node
  | [] => []
  | c :: cs => dproc.Node.nodes c ++ dproc.Node.nodesOfList cs
end

/-- The parent-child edges of the trees of a root list, as pairs of a parent
and one of its children. -/
def dproc.Node.edgesOfList (roots : List Node) : List (Node × Node) :=
  (dproc.Node.nodesOfList roots).flatMap (fun n => n.Children.map (fun c => (n, c)))

/-- The root list that `main` hands to `dproc.NewEngine`: one root, the
prime generator with limit 1e5. -/
def mainTree (sprintf : String → List FmtArg → String) : List Node :=
  [Node.NewDefaultProcess "Prime Process" (Handler.generator { Limit := 100000 })
    [Node.NewDefaultProcess "Prime Extension"
      (Handler.extension { PreviousPrime := { Index := 0, Prime := 0 }, PreviousAzm := 0 })
      [Node.NewDefaultProcess "Prime Output"
         (Handler.output (NewPrimeOutput "primes.csv")) [],
       Node.NewDefaultProcess "Rev Size Prime Output"
         (Handler.revSizeOutput (NewPrimeRevSizeOutput "rev_size.csv")) [],
       Node.NewDefaultProcess "Azimuth Mapper"
         (Handler.mapper { MapperFunc := PrimeAzimuthMapperFunc sprintf })
         [Node.NewDefaultProcess "Azimuth Mapper Output"
           (Handler.mapperOutput (NewPrimeMapperOutput "azm_map_results.csv" "azm")) []],
       Node.NewDefaultProcess "Last Digit, Azimuth Mapper"
         (Handler.mapper { MapperFunc := LastDigitPrimeAzimuthMapperFunc sprintf })
         [Node.NewDefaultProcess "Last Digit Azimuth Mapper Output"
           (Handler.mapperOutput
             (NewPrimeMapperOutput "last_digit_azm_map_results.csv" "lastDigit,azm")) []],
       Node.NewDefaultProcess "Last Digit, Azimuth, Delta Mapper"
         (Handler.mapper { MapperFunc := LastDigitPrimeAzimuthDeltaMapperFunc sprintf })
         [Node.NewDefaultProcess "Last Digit Azimuth Delta Mapper Output"
           (Handler.mapperOutput
             (NewPrimeMapperOutput "last_digit_azm_delta_map_results.csv"
               "lastDigit,azm,delta")) []],
       Node.NewDefaultProcess "Last Digit, Delta Mapper"
         (Handler.mapper { MapperFunc := LastDigitPrimeDeltaMapperFunc sprintf })
         [Node.NewDefaultProcess "Last Digit Delta Mapper Output"
           (Handler.mapperOutput
             (NewPrimeMapperOutput "last_digit_delta_map_results.csv" "lastDigit,delta")) []],
       Node.NewDefaultProcess "Delta, Last Digit, Azimuth Mapper"
         (Handler.mapper { MapperFunc := DeltaLastDigitAzimuthMapperFunc sprintf })
         [Node.NewDefaultProcess "Delta Last Digit Azimuth Mapper Output"
           (Handler.mapperOutput
             (NewPrimeMapperOutput "delta_last_digit_azm_map_results.csv"
               "delta,lastDigit,azm")) []],
       Node.NewDefaultProcess "Rev Mapper"
         (Handler.mapper { MapperFunc := RevMapperFunc sprintf })
         [Node.NewDefaultProcess "Rev Mapper Output"
           (Handler.mapperOutput (NewPrimeMapperOutput "rev_map_results.csv" "rev")) []],
       Node.NewDefaultProcess "Last Digit, Azimuth, Prev Azimuth Mapper"
         (Handler.mapper { MapperFunc := LastDigitAzimuthPreviousAzimuthMapperFunc sprintf })
         [Node.NewDefaultProcess "Last Digit Azimuth Prev Azimuth Mapper Output"
           (Handler.mapperOutput
             (NewPrimeMapperOutput "last_digit_azm_prevazm_map_results.csv"
               "lastDigit,azm,prevAzm")) []]]]]

/-- All nodes of the tree built in `main`. -/
def mainNodes (sprintf : String → List FmtArg → String) : List Node :=
  dproc.Node.nodesOfList (mainTree sprintf)

/-- All parent-child edges of the tree built in `main`. -/
def mainEdges (sprintf : String → List FmtArg → String) : List (Node × Node) :=
  dproc.Node.edgesOfList (mainTree sprintf)

/-- Messages dispatched by a handler of kind `pk` are accepted by every
handler of kind `ck`: handling one neither panics nor ends in the default
branch, and a map that has been made stays made. -/
def Compatible (Primes : Nat → List Nat) (clock : Nat → Nat) (now : Nat)
    (iter : List (String × Int) → List (String × Int)) (parentProc childProc : Process)
    (pk ck : HandlerKind) : Prop :=
  ∀ (p c : Handler) (msg : Message), p.kind = pk → c.kind = ck → c.mapMade = true →
    ∀ d ∈ dispatched (Handler.Handle Primes clock now iter parentProc p msg).effects,
      (Handler.Handle Primes clock now iter childProc c d).panicked = false ∧
      reportsUnknownType (Handler.Handle Primes clock now iter childProc c d).effects = false ∧
      (Handler.Handle Primes clock now iter childProc c d).handler.mapMade = true

/-! # Theorems -/

/-! ## Projections of an effect trace -/

theorem dispatched_append (a b : List Effect) :
    dispatched (a ++ b) = dispatched a ++ dispatched b := by
  induction a with
  | nil => rfl
  | cons e es ih => cases e <;> simp [dispatched, ih]

theorem written_append (a b : List Effect) :
    written (a ++ b) = written a ++ written b := by
  induction a with
  | nil => rfl
  | cons e es ih => cases e <;> simp [written, ih]

theorem statesSet_append (a b : List Effect) :
    statesSet (a ++ b) = statesSet a ++ statesSet b := by
  induction a with
  | nil => rfl
  | cons e es ih => cases e <;> simp [statesSet, ih]

theorem observable_append (a b : List Effect) :
    observable (a ++ b) = observable a ++ observable b := by
  induction a with
  | nil => rfl
  | cons e es ih => cases e <;> simp [observable, ih]

theorem dispatched_map_dispatch (ms : List Message) :
    dispatched (ms.map Effect.dispatch) = ms := by
  induction ms with
  | nil => rfl
  | cons m ms ih => simp [dispatched, ih]

theorem observable_map_dispatch (ms : List Message) :
    observable (ms.map Effect.dispatch) = ms.map Effect.dispatch := by
  induction ms with
  | nil => rfl
  | cons m ms ih => simp [observable, ih]

theorem dispatched_observable (es : List Effect) :
    dispatched (observable es) = dispatched es := by
  induction es with
  | nil => rfl
  | cons e es ih => cases e <;> simp [observable, dispatched, ih]

theorem Nat.toDigitsCore_ne_nil_of_ne_nil (b : Nat) (f n : Nat) (ds : List Char)
    (h : ds ≠ []) : Nat.toDigitsCore b f n ds ≠ [] := by
  induction f generalizing n ds with
  | zero => simpa [Nat.toDigitsCore] using h
  | succ f ih =>
    simp only [Nat.toDigitsCore]
    split
    · simp
    · exact ih _ _ (by simp)

theorem Nat.toDigits_ne_nil_base (b n : Nat) : Nat.toDigits b n ≠ [] := by
  simp only [Nat.toDigits, Nat.toDigitsCore]
  split
  · simp
  · exact Nat.toDigitsCore_ne_nil_of_ne_nil _ _ _ _ (by simp)

theorem lastDigit_isSome (p : Nat) : ∃ d, lastDigit p = some d := by
  unfold lastDigit
  cases h : (Nat.toDigits 10 p).getLast? with
  | none => exact absurd (List.getLast?_eq_none_iff.1 h) (Nat.toDigits_ne_nil_base 10 p)
  | some c => exact ⟨_, rfl⟩

theorem Nat.toDigitsCore_suffix (b : Nat) (f n : Nat) (ds : List Char) :
    ∃ front, Nat.toDigitsCore b f n ds = front ++ ds := by
  induction f generalizing n ds with
  | zero => exact ⟨[], rfl⟩
  | succ f ih =>
    simp only [Nat.toDigitsCore]
    split
    · exact ⟨[Nat.digitChar (n % b)], rfl⟩
    · obtain ⟨front, h⟩ := ih (n / b) (Nat.digitChar (n % b) :: ds)
      exact ⟨front ++ [Nat.digitChar (n % b)], by rw [h]; simp⟩

theorem Nat.toDigits_getLast? (n : Nat) :
    (Nat.toDigits 10 n).getLast? = some (Nat.digitChar (n % 10)) := by
  simp only [Nat.toDigits, Nat.toDigitsCore]
  split
  · rfl
  · obtain ⟨front, h⟩ := Nat.toDigitsCore_suffix 10 n (n / 10) [Nat.digitChar (n % 10)]
    rw [h]
    exact List.getLast?_concat _

theorem Nat.digitChar_toNat_sub (d : Nat) (h : d < 10) :
    ((Nat.digitChar d).toNat : Int) - 48 = (d : Int) := by
  interval_cases d <;> rfl

/-- The function `lastDigit` returns the last decimal digit of its argument. -/
theorem lastDigit_eq (p : Nat) : lastDigit p = some ((p % 10 : Nat) : Int) := by
  unfold lastDigit
  rw [Nat.toDigits_getLast?]
  simp only
  rw [Nat.digitChar_toNat_sub _ (Nat.mod_lt _ (by decide))]

/-! ## Digits and the loop of PrimeGenerator -/

theorem PrimeGenerator.loop_ok (clock : Nat → Nat) (proc : Process) (n : Nat)
    (hn : n / 10 ≠ 0) (ps : List Nat) (i : Nat) :
    (PrimeGenerator.loop clock proc n i ps).2 = false ∧
    observable (PrimeGenerator.loop clock proc n i ps).1 =
      ((ps.enumFrom i).map (fun kq => primeMessageAt clock kq.1 kq.2)).map Effect.dispatch := by
  induction ps generalizing i with
  | nil => simp [PrimeGenerator.loop, observable]
  | cons q rest ih =>
    obtain ⟨h1, h2⟩ := ih (i + 1)
    simp only [PrimeGenerator.loop, hn, if_false]
    refine ⟨h1, ?_⟩
    rw [observable_append]
    by_cases hi : i % (n / 10) = 0
    · simp [hi, observable, h2, primeMessageAt, List.enumFrom]
    · simp [hi, observable, h2, primeMessageAt, List.enumFrom]

/-! ## C7: Stop dispatches nothing -/

/-- C7: no handler dispatches while processing Stop. For each of the six
handlers and every state of it, handling a message of type Stop dispatches no
message to the children of the node. -/
theorem stop_dispatches_nothing (Primes : Nat → List Nat) (clock : Nat → Nat) (now : Nat)
    (iter : List (String × Int) → List (String × Int)) (proc : Process) (msg : Message)
    (hstop : msg.MsgType = MessageTypeStop)
    (g : PrimeGenerator) (x : PrimeExtensionProcess) (m : PrimeMapperProcess)
    (po : PrimeOutput) (mo : PrimeMapperOutput) (ro : PrimeRevSizeOutput) :
    dispatched (PrimeGenerator.Handle Primes clock proc g msg).effects = [] ∧
    dispatched (PrimeExtensionProcess.Handle now proc x msg).effects = [] ∧
    dispatched (PrimeMapperProcess.Handle now proc m msg).effects = [] ∧
    dispatched (PrimeOutput.Handle proc po msg).effects = [] ∧
    dispatched (PrimeMapperOutput.Handle iter proc mo msg).effects = [] ∧
    dispatched (PrimeRevSizeOutput.Handle proc ro msg).effects = [] := by
  have h1 : ¬ (MessageTypeStop = MessageTypeStart) := by decide
  have h2 : ¬ (MessageTypeStop = TypeExtendedPrime) := by decide
  have h3 : ¬ (MessageTypeStop = TypeMapKey) := by decide
  refine ⟨?_, ?_, ?_, ?_, ?_, ?_⟩
  · simp [PrimeGenerator.Handle, hstop, h1, dispatched]
  · simp [PrimeExtensionProcess.Handle, hstop, h1, dispatched]
  · simp [PrimeMapperProcess.Handle, hstop, h1, dispatched]
  · simp [PrimeOutput.Handle, hstop, h1, h2, dispatched]
  · simp [PrimeMapperOutput.Handle, hstop, h1, h3, dispatched]
  · simp [PrimeRevSizeOutput.Handle, hstop, h1, h2, dispatched]

/-- C7 at a concrete Stop message and concrete handlers. -/
theorem stop_dispatches_nothing_witness :
    (controlMessage MessageTypeStop).MsgType = MessageTypeStop ∧
    (dispatched (PrimeGenerator.Handle (fun _ => [2, 3, 5]) (fun i => i) ⟨"gen"⟩ ⟨10⟩
        (controlMessage MessageTypeStop)).effects = [] ∧
     dispatched (PrimeExtensionProcess.Handle 0 ⟨"gen"⟩ ⟨⟨0, 2⟩, 2.0⟩
        (controlMessage MessageTypeStop)).effects = [] ∧
     dispatched (PrimeMapperProcess.Handle 0 ⟨"gen"⟩ ⟨fun _ => "k"⟩
        (controlMessage MessageTypeStop)).effects = [] ∧
     dispatched (PrimeOutput.Handle ⟨"gen"⟩ (NewPrimeOutput "a.csv")
        (controlMessage MessageTypeStop)).effects = [] ∧
     dispatched (PrimeMapperOutput.Handle (fun d => d) ⟨"gen"⟩ (NewPrimeMapperOutput "b.csv" "azm")
        (controlMessage MessageTypeStop)).effects = [] ∧
     dispatched (PrimeRevSizeOutput.Handle ⟨"gen"⟩ (NewPrimeRevSizeOutput "c.csv")
        (controlMessage MessageTypeStop)).effects = []) :=
  ⟨rfl, stop_dispatches_nothing (fun _ => [2, 3, 5]) (fun i => i) 0 (fun d => d) ⟨"gen"⟩
    (controlMessage MessageTypeStop) rfl ⟨10⟩ ⟨⟨0, 2⟩, 2.0⟩ ⟨fun _ => "k"⟩
    (NewPrimeOutput "a.csv") (NewPrimeMapperOutput "b.csv" "azm") (NewPrimeRevSizeOutput "c.csv")⟩

/-! ## C1: PrimeGenerator on Start -/

/-- C1: PrimeGenerator.Handle on a Start message. Whenever the sieve returns
a list `ps` of at least ten primes, the call returns normally, leaves the
handler unchanged, dispatches exactly `ps.length` messages, the `k`-th being
of type Prime with payload `PrimeMessage{Index: k, Prime: ps[k]}`, and its
effects on the node are these dispatches, in order, followed by one
`SetState(Killed)`: the state is set after the last dispatch and nothing is
dispatched after it. -/
theorem generator_start_dispatches_all (Primes : Nat → List Nat) (clock : Nat → Nat)
    (proc : Process) (p : PrimeGenerator) (msg : Message)
    (hstart : msg.MsgType = MessageTypeStart) (hlen : 10 ≤ (Primes p.Limit).length) :
    (PrimeGenerator.Handle Primes clock proc p msg).panicked = false ∧
    (PrimeGenerator.Handle Primes clock proc p msg).handler = p ∧
    (dispatched (PrimeGenerator.Handle Primes clock proc p msg).effects).length
      = (Primes p.Limit).length ∧
    (∀ k (hk : k < (Primes p.Limit).length),
      (dispatched (PrimeGenerator.Handle Primes clock proc p msg).effects)[k]? =
        some { MsgType := TypePrime, Timestamp := clock k, Forward := false,
               Value := Value.primeMessage
                 { Index := (k : Int), Prime := (Primes p.Limit)[k] } }) ∧
    observable (PrimeGenerator.Handle Primes clock proc p msg).effects =
      (dispatched (PrimeGenerator.Handle Primes clock proc p msg).effects).map Effect.dispatch
        ++ [Effect.setState State.StateKilled] := by
  have hn : (Primes p.Limit).length / 10 ≠ 0 := by omega
  obtain ⟨h1, h2⟩ := PrimeGenerator.loop_ok clock proc _ hn (Primes p.Limit) 0
  have hobs : observable (PrimeGenerator.Handle Primes clock proc p msg).effects =
      (((Primes p.Limit).enumFrom 0).map (fun kq => primeMessageAt clock kq.1 kq.2)).map
        Effect.dispatch ++ [Effect.setState State.StateKilled] := by
    simp only [PrimeGenerator.Handle, hstart, if_true, h1, Bool.false_eq_true, if_false]
    rw [observable_append, observable_append, h2]
    simp [observable]
  have hdis : dispatched (PrimeGenerator.Handle Primes clock proc p msg).effects =
      ((Primes p.Limit).enumFrom 0).map (fun kq => primeMessageAt clock kq.1 kq.2) := by
    rw [← dispatched_observable, hobs, dispatched_append, dispatched_map_dispatch]
    simp [dispatched]
  refine ⟨?_, ?_, ?_, ?_, ?_⟩
  · simp [PrimeGenerator.Handle, hstart, h1]
  · simp only [PrimeGenerator.Handle, hstart, if_true]
    split <;> rfl
  · rw [hdis]; simp
  · intro k hk
    rw [hdis]
    simp [List.getElem?_enumFrom, hk, primeMessageAt]
  · rw [hobs, hdis]

/-- C1 at a sieve that returns the ten primes below 30. -/
theorem generator_start_dispatches_all_witness :
    (controlMessage MessageTypeStart).MsgType = MessageTypeStart ∧
    10 ≤ ((fun _ => [2, 3, 5, 7, 11, 13, 17, 19, 23, 29] : Nat → List Nat) 30).length ∧
    (PrimeGenerator.Handle (fun _ => [2, 3, 5, 7, 11, 13, 17, 19, 23, 29]) (fun i => i)
        ⟨"Prime Process"⟩ ⟨30⟩ (controlMessage MessageTypeStart)).panicked = false ∧
    (dispatched (PrimeGenerator.Handle (fun _ => [2, 3, 5, 7, 11, 13, 17, 19, 23, 29])
        (fun i => i) ⟨"Prime Process"⟩ ⟨30⟩ (controlMessage MessageTypeStart)).effects).length
      = 10 ∧
    observable (PrimeGenerator.Handle (fun _ => [2, 3, 5, 7, 11, 13, 17, 19, 23, 29])
        (fun i => i) ⟨"Prime Process"⟩ ⟨30⟩ (controlMessage MessageTypeStart)).effects =
      (dispatched (PrimeGenerator.Handle (fun _ => [2, 3, 5, 7, 11, 13, 17, 19, 23, 29])
        (fun i => i) ⟨"Prime Process"⟩ ⟨30⟩ (controlMessage MessageTypeStart)).effects).map
          Effect.dispatch ++ [Effect.setState State.StateKilled] :=
  have h := generator_start_dispatches_all (fun _ => [2, 3, 5, 7, 11, 13, 17, 19, 23, 29])
    (fun i => i) ⟨"Prime Process"⟩ ⟨30⟩ (controlMessage MessageTypeStart) rfl (by decide)
  ⟨rfl, by decide, h.1, h.2.2.1, h.2.2.2.2⟩

/-! ## C4: PrimeExtensionProcess -/

/-- C4: PrimeExtensionProcess adds data to a prime before passing it on. For
every handler state and every message of type Prime carrying a PrimeMessage
`m`, Handle returns normally and dispatches exactly one message, of type
ExtendedPrime, whose payload has the Index and the Prime of `m` and, added to
them, the gap to the previous prime (a wrapping `uint64` difference), the
last decimal digit, the decimal logarithm, the point `(pX, pY)` on the
logarithmic spiral, its azimuth in degrees made non-negative, the change of
azimuth made non-negative, `Prime % 360` and `Prime / 360`; afterwards
PreviousPrime is `m` and PreviousAzm is the azimuth of `m`. On a message of
type Start or Stop it dispatches nothing and leaves the handler unchanged. -/
theorem extension_passes_prime_on (now : Nat) (proc : Process) (p : PrimeExtensionProcess)
    (msg : Message) :
    (∀ m : PrimeMessage, msg.MsgType = TypePrime → msg.Value = Value.primeMessage m →
      let pi : Float := 3.14159265358979323846264338327950288419716939937510582097494459
      let pRad : Float := Float.ofNat m.Prime / 180.0 * pi
      let pLog : Float := Float.log10 (Float.ofNat m.Prime)
      let pX : Float := pLog * Float.cos pRad
      let pY : Float := pLog * Float.sin pRad
      let atan : Float := Float.atan2 pY pX * 180 / pi
      let pAzm : Float := if atan < 0 then atan + 360 else atan
      let delta : Float := pAzm - p.PreviousAzm
      let deltaAngle : Float := if delta < 0 then delta + 360 else delta
      (PrimeExtensionProcess.Handle now proc p msg).panicked = false ∧
      (PrimeExtensionProcess.Handle now proc p msg).handler =
        { PreviousPrime := m, PreviousAzm := pAzm } ∧
      dispatched (PrimeExtensionProcess.Handle now proc p msg).effects =
        [{ MsgType := TypeExtendedPrime, Timestamp := now, Forward := false,
           Value := Value.extendedPrimeMessage
             { Index := m.Index, Prime := m.Prime,
               PrimeDiff := (m.Prime + 2 ^ 64 - p.PreviousPrime.Prime % 2 ^ 64) % 2 ^ 64,
               LastDigit := ((m.Prime % 10 : Nat) : Int),
               Log := pLog, X := pX, Y := pY, Azimuth := pAzm,
               DeltaAzimuth := deltaAngle,
               Mod360 := m.Prime % 360, Revs := m.Prime / 360 } }]) ∧
    (msg.MsgType = MessageTypeStart ∨ msg.MsgType = MessageTypeStop →
      (PrimeExtensionProcess.Handle now proc p msg).panicked = false ∧
      (PrimeExtensionProcess.Handle now proc p msg).handler = p ∧
      dispatched (PrimeExtensionProcess.Handle now proc p msg).effects = []) := by
  have h1 : ¬ (TypePrime = MessageTypeStart) := by decide
  have h2 : ¬ (TypePrime = MessageTypeStop) := by decide
  have h3 : ¬ (MessageTypeStop = MessageTypeStart) := by decide
  constructor
  · intro m ht hv
    have hstep : PrimeExtensionProcess.Handle now proc p msg =
        { handler := { PreviousPrime := m, PreviousAzm := primeAzimuth m.Prime },
          effects := [Effect.dispatch
            { Forward := false, MsgType := TypeExtendedPrime, Timestamp := now,
              Value := Value.extendedPrimeMessage
                (p.extend m ((m.Prime % 10 : Nat) : Int)) }],
          panicked := false } := by
      simp only [PrimeExtensionProcess.Handle, ht, hv, h1, h2, if_false, if_true,
        lastDigit_eq]
    rw [hstep]
    exact ⟨rfl, rfl, rfl⟩
  · rintro (ht | ht)
    · simp [PrimeExtensionProcess.Handle, ht, dispatched]
    · simp [PrimeExtensionProcess.Handle, ht, h3, dispatched]

/-- C4 at the message `PrimeMessage{Index: 3, Prime: 7}` handled after the
prime 5, and at a Start message: the one message dispatched carries index 3,
prime 7, gap 2, last digit 7, `7 % 360 = 7` and `7 / 360 = 0`. -/
theorem extension_passes_prime_on_witness :
    (PrimeExtensionProcess.Handle 5 ⟨"Prime Extension"⟩ ⟨⟨2, 5⟩, 5.0⟩
        { MsgType := TypePrime, Timestamp := 4, Value := Value.primeMessage ⟨3, 7⟩,
          Forward := false }).handler.PreviousPrime = ⟨3, 7⟩ ∧
    (dispatched (PrimeExtensionProcess.Handle 5 ⟨"Prime Extension"⟩ ⟨⟨2, 5⟩, 5.0⟩
        { MsgType := TypePrime, Timestamp := 4, Value := Value.primeMessage ⟨3, 7⟩,
          Forward := false }).effects).map integerFields = [some (3, 7, 2, 7, 7, 0)] ∧
    (dispatched (PrimeExtensionProcess.Handle 5 ⟨"Prime Extension"⟩ ⟨⟨2, 5⟩, 5.0⟩
        { MsgType := TypePrime, Timestamp := 4, Value := Value.primeMessage ⟨3, 7⟩,
          Forward := false }).effects).map (fun d => d.MsgType) = [TypeExtendedPrime] ∧
    dispatched (PrimeExtensionProcess.Handle 5 ⟨"Prime Extension"⟩ ⟨⟨2, 5⟩, 5.0⟩
      (controlMessage MessageTypeStart)).effects = [] := by
  have h := (extension_passes_prime_on 5 ⟨"Prime Extension"⟩ ⟨⟨2, 5⟩, 5.0⟩
      { MsgType := TypePrime, Timestamp := 4, Value := Value.primeMessage ⟨3, 7⟩,
        Forward := false }).1 ⟨3, 7⟩ rfl rfl
  have hs := ((extension_passes_prime_on 5 ⟨"Prime Extension"⟩ ⟨⟨2, 5⟩, 5.0⟩
      (controlMessage MessageTypeStart)).2 (Or.inl rfl)).2.2
  refine ⟨?_, ?_, ?_, hs⟩
  · rw [h.2.1]
  · rw [h.2.2]; rfl
  · rw [h.2.2]; rfl

/-! ## C5: unknown message types -/

/-- C5: an unrecognized message type is logged and dropped. For each of the
six handlers, every handler state and every message whose type is none of the
types the handler has a case for, Handle returns normally, performs no effect
on the node or the file (no dispatch, no write, no close, no state change)
and leaves the handler's fields unchanged; its only effect is one line of
diagnostics naming the type. -/
theorem unknown_type_is_dropped (Primes : Nat → List Nat) (clock : Nat → Nat) (now : Nat)
    (iter : List (String × Int) → List (String × Int)) (proc : Process) (msg : Message)
    (g : PrimeGenerator) (x : PrimeExtensionProcess) (m : PrimeMapperProcess)
    (po : PrimeOutput) (mo : PrimeMapperOutput) (ro : PrimeRevSizeOutput) :
    (msg.MsgType ≠ MessageTypeStart →
      (PrimeGenerator.Handle Primes clock proc g msg).panicked = false ∧
      (PrimeGenerator.Handle Primes clock proc g msg).effects =
        [Effect.println [FmtArg.str "Unknown message type: ", FmtArg.str msg.MsgType]] ∧
      observable (PrimeGenerator.Handle Primes clock proc g msg).effects = [] ∧
      (PrimeGenerator.Handle Primes clock proc g msg).handler = g) ∧
    (msg.MsgType ≠ MessageTypeStart → msg.MsgType ≠ MessageTypeStop →
        msg.MsgType ≠ TypePrime →
      (PrimeExtensionProcess.Handle now proc x msg).panicked = false ∧
      (PrimeExtensionProcess.Handle now proc x msg).effects =
        [Effect.log "[%s] - Unknown message type: %s"
          [FmtArg.str proc.Name, FmtArg.str msg.MsgType]] ∧
      observable (PrimeExtensionProcess.Handle now proc x msg).effects = [] ∧
      (PrimeExtensionProcess.Handle now proc x msg).handler = x) ∧
    (msg.MsgType ≠ MessageTypeStart → msg.MsgType ≠ MessageTypeStop →
        msg.MsgType ≠ TypeExtendedPrime →
      (PrimeMapperProcess.Handle now proc m msg).panicked = false ∧
      (PrimeMapperProcess.Handle now proc m msg).effects =
        [Effect.log "[%s] - Unknown message type: %s"
          [FmtArg.str proc.Name, FmtArg.str msg.MsgType]] ∧
      observable (PrimeMapperProcess.Handle now proc m msg).effects = [] ∧
      (PrimeMapperProcess.Handle now proc m msg).handler = m) ∧
    (msg.MsgType ≠ MessageTypeStart → msg.MsgType ≠ TypeExtendedPrime →
        msg.MsgType ≠ MessageTypeStop →
      (PrimeOutput.Handle proc po msg).panicked = false ∧
      (PrimeOutput.Handle proc po msg).effects =
        [Effect.log "[%s] - Unknown message type: %s"
          [FmtArg.str proc.Name, FmtArg.str msg.MsgType]] ∧
      observable (PrimeOutput.Handle proc po msg).effects = [] ∧
      (PrimeOutput.Handle proc po msg).handler = po) ∧
    (msg.MsgType ≠ MessageTypeStart → msg.MsgType ≠ TypeMapKey →
        msg.MsgType ≠ MessageTypeStop →
      (PrimeMapperOutput.Handle iter proc mo msg).panicked = false ∧
      (PrimeMapperOutput.Handle iter proc mo msg).effects =
        [Effect.log "[%s] - Unknown message type: %s"
          [FmtArg.str proc.Name, FmtArg.str msg.MsgType]] ∧
      observable (PrimeMapperOutput.Handle iter proc mo msg).effects = [] ∧
      (PrimeMapperOutput.Handle iter proc mo msg).handler = mo) ∧
    (msg.MsgType ≠ MessageTypeStart → msg.MsgType ≠ TypeExtendedPrime →
        msg.MsgType ≠ MessageTypeStop →
      (PrimeRevSizeOutput.Handle proc ro msg).panicked = false ∧
      (PrimeRevSizeOutput.Handle proc ro msg).effects =
        [Effect.log "[%s] - Unknown message type: %s"
          [FmtArg.str proc.Name, FmtArg.str msg.MsgType]] ∧
      observable (PrimeRevSizeOutput.Handle proc ro msg).effects = [] ∧
      (PrimeRevSizeOutput.Handle proc ro msg).handler = ro) := by
  refine ⟨?_, ?_, ?_, ?_, ?_, ?_⟩
  · intro h1
    simp [PrimeGenerator.Handle, h1, observable]
  · intro h1 h2 h3
    simp [PrimeExtensionProcess.Handle, h1, h2, h3, observable]
  · intro h1 h2 h3
    simp [PrimeMapperProcess.Handle, h1, h2, h3, observable]
  · intro h1 h2 h3
    simp [PrimeOutput.Handle, h1, h2, h3, observable]
  · intro h1 h2 h3
    simp [PrimeMapperOutput.Handle, h1, h2, h3, observable]
  · intro h1 h2 h3
    simp [PrimeRevSizeOutput.Handle, h1, h2, h3, observable]

/-- C5 at a message of type `Composite`, for all six handlers. -/
theorem unknown_type_is_dropped_witness :
    observable (PrimeGenerator.Handle (fun _ => [2, 3, 5]) (fun i => i) ⟨"n"⟩ ⟨6⟩
      strayMessage).effects = [] ∧
    observable (PrimeExtensionProcess.Handle 0 ⟨"n"⟩ ⟨⟨0, 2⟩, 2.0⟩ strayMessage).effects = [] ∧
    observable (PrimeMapperProcess.Handle 0 ⟨"n"⟩ ⟨fun _ => "k"⟩ strayMessage).effects = [] ∧
    observable (PrimeOutput.Handle ⟨"n"⟩ (NewPrimeOutput "a.csv") strayMessage).effects = [] ∧
    observable (PrimeMapperOutput.Handle (fun d => d) ⟨"n"⟩ (NewPrimeMapperOutput "b.csv" "azm")
      strayMessage).effects = [] ∧
    observable (PrimeRevSizeOutput.Handle ⟨"n"⟩ (NewPrimeRevSizeOutput "c.csv")
      strayMessage).effects = [] :=
  have h := unknown_type_is_dropped (fun _ => [2, 3, 5]) (fun i => i) 0 (fun d => d) ⟨"n"⟩
    strayMessage ⟨6⟩ ⟨⟨0, 2⟩, 2.0⟩ ⟨fun _ => "k"⟩ (NewPrimeOutput "a.csv")
    (NewPrimeMapperOutput "b.csv" "azm") (NewPrimeRevSizeOutput "c.csv")
  ⟨(h.1 (by decide)).2.2.1,
   (h.2.1 (by decide) (by decide) (by decide)).2.2.1,
   (h.2.2.1 (by decide) (by decide) (by decide)).2.2.1,
   (h.2.2.2.1 (by decide) (by decide) (by decide)).2.2.1,
   (h.2.2.2.2.1 (by decide) (by decide) (by decide)).2.2.1,
   (h.2.2.2.2.2 (by decide) (by decide) (by decide)).2.2.1⟩

/-! ## C6: payload mismatch -/

/-- C6: a payload mismatch is fatal to the handler call. For each handler
that decodes a payload, a message of the decoded type whose Value does not
have the expected shape makes Handle panic, and it panics before any effect
(no dispatch, no write, not even a log line) and with the handler's fields
unchanged. -/
theorem payload_mismatch_panics_first (now : Nat)
    (iter : List (String × Int) → List (String × Int)) (proc : Process) (msg : Message)
    (x : PrimeExtensionProcess) (m : PrimeMapperProcess)
    (po : PrimeOutput) (mo : PrimeMapperOutput) (ro : PrimeRevSizeOutput) :
    (msg.MsgType = TypePrime → (∀ pm, msg.Value ≠ Value.primeMessage pm) →
      (PrimeExtensionProcess.Handle now proc x msg).panicked = true ∧
      (PrimeExtensionProcess.Handle now proc x msg).effects = [] ∧
      (PrimeExtensionProcess.Handle now proc x msg).handler = x) ∧
    (msg.MsgType = TypeExtendedPrime → (∀ e, msg.Value ≠ Value.extendedPrimeMessage e) →
      ((PrimeMapperProcess.Handle now proc m msg).panicked = true ∧
       (PrimeMapperProcess.Handle now proc m msg).effects = [] ∧
       (PrimeMapperProcess.Handle now proc m msg).handler = m) ∧
      ((PrimeOutput.Handle proc po msg).panicked = true ∧
       (PrimeOutput.Handle proc po msg).effects = [] ∧
       (PrimeOutput.Handle proc po msg).handler = po) ∧
      ((PrimeRevSizeOutput.Handle proc ro msg).panicked = true ∧
       (PrimeRevSizeOutput.Handle proc ro msg).effects = [] ∧
       (PrimeRevSizeOutput.Handle proc ro msg).handler = ro)) ∧
    (msg.MsgType = TypeMapKey → (∀ s, msg.Value ≠ Value.string s) →
      (PrimeMapperOutput.Handle iter proc mo msg).panicked = true ∧
      (PrimeMapperOutput.Handle iter proc mo msg).effects = [] ∧
      (PrimeMapperOutput.Handle iter proc mo msg).handler = mo) := by
  have h1 : ¬ (TypePrime = MessageTypeStart) := by decide
  have h2 : ¬ (TypePrime = MessageTypeStop) := by decide
  have h3 : ¬ (TypeExtendedPrime = MessageTypeStart) := by decide
  have h4 : ¬ (TypeExtendedPrime = MessageTypeStop) := by decide
  have h5 : ¬ (TypeMapKey = MessageTypeStart) := by decide
  refine ⟨?_, ?_, ?_⟩
  · intro ht hv
    cases hval : msg.Value with
    | primeMessage pm => exact absurd hval (hv pm)
    | _ => simp [PrimeExtensionProcess.Handle, ht, h1, h2, hval]
  · intro ht hv
    cases hval : msg.Value with
    | extendedPrimeMessage e => exact absurd hval (hv e)
    | _ =>
      simp [PrimeMapperProcess.Handle, PrimeOutput.Handle, PrimeRevSizeOutput.Handle,
        ht, h3, h4, hval]
  · intro ht hv
    cases hval : msg.Value with
    | string s => exact absurd hval (hv s)
    | _ => simp [PrimeMapperOutput.Handle, ht, h5, hval]

/-- C6 at messages of the three decoded types that carry a payload of a
foreign dynamic type. -/
theorem payload_mismatch_panics_first_witness :
    (PrimeExtensionProcess.Handle 0 ⟨"n"⟩ ⟨⟨0, 2⟩, 2.0⟩
      { MsgType := TypePrime, Timestamp := 1, Value := Value.string "7",
        Forward := false }).panicked = true ∧
    (PrimeRevSizeOutput.Handle ⟨"n"⟩ (NewPrimeRevSizeOutput "c.csv")
      { MsgType := TypeExtendedPrime, Timestamp := 1, Value := Value.primeMessage ⟨0, 2⟩,
        Forward := false }).effects = [] ∧
    (PrimeMapperOutput.Handle (fun d => d) ⟨"n"⟩ (NewPrimeMapperOutput "b.csv" "azm")
      { MsgType := TypeMapKey, Timestamp := 1, Value := Value.nil,
        Forward := false }).panicked = true :=
  ⟨((payload_mismatch_panics_first 0 (fun d => d) ⟨"n"⟩
      { MsgType := TypePrime, Timestamp := 1, Value := Value.string "7", Forward := false }
      ⟨⟨0, 2⟩, 2.0⟩ ⟨fun _ => "k"⟩ (NewPrimeOutput "a.csv") (NewPrimeMapperOutput "b.csv" "azm")
      (NewPrimeRevSizeOutput "c.csv")).1 rfl (fun _ h => Value.noConfusion h)).1,
   ((payload_mismatch_panics_first 0 (fun d => d) ⟨"n"⟩
      { MsgType := TypeExtendedPrime, Timestamp := 1, Value := Value.primeMessage ⟨0, 2⟩,
        Forward := false }
      ⟨⟨0, 2⟩, 2.0⟩ ⟨fun _ => "k"⟩ (NewPrimeOutput "a.csv") (NewPrimeMapperOutput "b.csv" "azm")
      (NewPrimeRevSizeOutput "c.csv")).2.1 rfl (fun _ h => Value.noConfusion h)).2.2.2.1,
   ((payload_mismatch_panics_first 0 (fun d => d) ⟨"n"⟩
      { MsgType := TypeMapKey, Timestamp := 1, Value := Value.nil, Forward := false }
      ⟨⟨0, 2⟩, 2.0⟩ ⟨fun _ => "k"⟩ (NewPrimeOutput "a.csv") (NewPrimeMapperOutput "b.csv" "azm")
      (NewPrimeRevSizeOutput "c.csv")).2.2 rfl (fun _ h => Value.noConfusion h)).1⟩

/-! ## C9: the Forward flag -/

theorem PrimeGenerator.loop_forward (clock : Nat → Nat) (proc : Process) (n : Nat)
    (ps : List Nat) (i : Nat) :
    ∀ d ∈ dispatched (PrimeGenerator.loop clock proc n i ps).1, d.Forward = false := by
  induction ps generalizing i with
  | nil => simp [PrimeGenerator.loop, dispatched]
  | cons q rest ih =>
    simp only [PrimeGenerator.loop]
    split
    · simp [dispatched]
    · intro d hd
      rw [dispatched_append] at hd
      rcases List.mem_append.1 hd with h | h
      · split at h <;> simp [dispatched] at h
      · simp only [dispatched, List.mem_cons] at h
        rcases h with h | h
        · rw [h]
        · exact ih (i + 1) d h

/-- C9: the Forward flag is always false in observed use. Every message that
a handler of this repository dispatches to its children has Forward = false,
for every input message and every handler state (the three output writers
dispatch nothing at all). -/
theorem dispatched_forward_false (Primes : Nat → List Nat) (clock : Nat → Nat) (now : Nat)
    (iter : List (String × Int) → List (String × Int)) (proc : Process) (msg : Message)
    (g : PrimeGenerator) (x : PrimeExtensionProcess) (m : PrimeMapperProcess)
    (po : PrimeOutput) (mo : PrimeMapperOutput) (ro : PrimeRevSizeOutput) :
    (∀ d ∈ dispatched (PrimeGenerator.Handle Primes clock proc g msg).effects,
      d.Forward = false) ∧
    (∀ d ∈ dispatched (PrimeExtensionProcess.Handle now proc x msg).effects,
      d.Forward = false) ∧
    (∀ d ∈ dispatched (PrimeMapperProcess.Handle now proc m msg).effects,
      d.Forward = false) ∧
    dispatched (PrimeOutput.Handle proc po msg).effects = [] ∧
    dispatched (PrimeMapperOutput.Handle iter proc mo msg).effects = [] ∧
    dispatched (PrimeRevSizeOutput.Handle proc ro msg).effects = [] := by
  refine ⟨?_, ?_, ?_, ?_, ?_, ?_⟩
  · intro d hd
    simp only [PrimeGenerator.Handle] at hd
    split at hd
    · split at hd
      · rw [dispatched_append] at hd
        rcases List.mem_append.1 hd with h | h
        · simp [dispatched] at h
        · exact PrimeGenerator.loop_forward _ _ _ _ _ d h
      · rw [dispatched_append, dispatched_append] at hd
        rcases List.mem_append.1 hd with h | h
        · rcases List.mem_append.1 h with h | h
          · simp [dispatched] at h
          · exact PrimeGenerator.loop_forward _ _ _ _ _ d h
        · simp [dispatched] at h
    · simp [dispatched] at hd
  · intro d hd
    simp only [PrimeExtensionProcess.Handle] at hd
    repeat' split at hd
    all_goals simp [dispatched] at hd
    all_goals rw [hd]
  · intro d hd
    simp only [PrimeMapperProcess.Handle] at hd
    repeat' split at hd
    all_goals simp [dispatched] at hd
    all_goals rw [hd]
  · simp only [PrimeOutput.Handle]
    repeat' split
    all_goals rfl
  · simp only [PrimeMapperOutput.Handle]
    repeat' split
    all_goals rfl
  · simp only [PrimeRevSizeOutput.Handle]
    repeat' split
    all_goals rfl

/-- C9 at an ExtendedPrime message handled by a PrimeMapperProcess: the one
message it dispatches has Forward = false. -/
theorem dispatched_forward_false_witness :
    ∃ d, d ∈ dispatched (PrimeMapperProcess.Handle 9 ⟨"Rev Mapper"⟩ ⟨fun _ => "0000"⟩
        { MsgType := TypeExtendedPrime, Timestamp := 8,
          Value := Value.extendedPrimeMessage sampleExtended, Forward := false }).effects ∧
      d.Forward = false :=
  ⟨{ MsgType := TypeMapKey, Timestamp := 9, Value := Value.string "0000", Forward := false },
   List.mem_singleton.2 rfl,
   (dispatched_forward_false (fun _ => [2, 3, 5]) (fun i => i) 9 (fun d => d) ⟨"Rev Mapper"⟩
      { MsgType := TypeExtendedPrime, Timestamp := 8,
        Value := Value.extendedPrimeMessage sampleExtended, Forward := false }
      ⟨6⟩ ⟨⟨0, 2⟩, 2.0⟩ ⟨fun _ => "0000"⟩ (NewPrimeOutput "a.csv")
      (NewPrimeMapperOutput "b.csv" "rev") (NewPrimeRevSizeOutput "c.csv")).2.2.1 _
      (List.mem_singleton.2 rfl)⟩

/-! ## C8: PrimeMapperProcess -/

theorem PrimeMapperProcess.handler_eq (now : Nat) (proc : Process) (p : PrimeMapperProcess)
    (msg : Message) : (PrimeMapperProcess.Handle now proc p msg).handler = p := by
  simp only [PrimeMapperProcess.Handle]
  repeat' split
  all_goals rfl

theorem PrimeMapperProcess.handle_well_shaped (now : Nat) (proc : Process)
    (p : PrimeMapperProcess) (msg : Message)
    (h : msg.MsgType = TypeExtendedPrime → ∃ m, msg.Value = Value.extendedPrimeMessage m) :
    (PrimeMapperProcess.Handle now proc p msg).panicked = false ∧
    dispatched (PrimeMapperProcess.Handle now proc p msg).effects =
      ((extendedPayload msg).map (mapKeyMessage p.MapperFunc now)).toList := by
  have h3 : ¬ (TypeExtendedPrime = MessageTypeStart) := by decide
  have h4 : ¬ (TypeExtendedPrime = MessageTypeStop) := by decide
  have h5 : ¬ (MessageTypeStart = TypeExtendedPrime) := by decide
  have h6 : ¬ (MessageTypeStop = TypeExtendedPrime) := by decide
  have h7 : ¬ (MessageTypeStop = MessageTypeStart) := by decide
  by_cases ht : msg.MsgType = TypeExtendedPrime
  · obtain ⟨m, hm⟩ := h ht
    simp [PrimeMapperProcess.Handle, extendedPayload, ht, hm, h3, h4, dispatched,
      mapKeyMessage]
  · by_cases hs : msg.MsgType = MessageTypeStart
    · simp [PrimeMapperProcess.Handle, extendedPayload, hs, h5, dispatched]
    · by_cases hp : msg.MsgType = MessageTypeStop
      · simp [PrimeMapperProcess.Handle, extendedPayload, hp, h6, h7, dispatched]
      · simp [PrimeMapperProcess.Handle, extendedPayload, hs, hp, ht, dispatched]

theorem PrimeMapperProcess.run_well_shaped (proc : Process) (p : PrimeMapperProcess)
    (ds : List (Nat × Message))
    (h : ∀ d ∈ ds, d.2.MsgType = TypeExtendedPrime →
      ∃ m, d.2.Value = Value.extendedPrimeMessage m) :
    (runHandler (PrimeMapperProcess.deliver proc) p ds).panicked = false ∧
    dispatched (runHandler (PrimeMapperProcess.deliver proc) p ds).effects =
      ds.filterMap (fun d => (extendedPayload d.2).map (mapKeyMessage p.MapperFunc d.1)) := by
  induction ds with
  | nil => simp [runHandler, dispatched]
  | cons d ds ih =>
    obtain ⟨h1, h2⟩ := PrimeMapperProcess.handle_well_shaped d.1 proc p d.2
      (h d (List.mem_cons_self _ _))
    obtain ⟨i1, i2⟩ := ih (fun e he => h e (List.mem_cons_of_mem _ he))
    have hh := PrimeMapperProcess.handler_eq d.1 proc p d.2
    have e : PrimeMapperProcess.deliver proc p d = PrimeMapperProcess.Handle d.1 proc p d.2 :=
      rfl
    simp only [runHandler, e, h1, Bool.false_eq_true, if_false, hh]
    refine ⟨i1, ?_⟩
    rw [dispatched_append, h2, i2]
    cases hx : extendedPayload d.2 <;> simp [List.filterMap_cons, hx]

/-- C8: PrimeMapperProcess maps data. For every mapper function `f` and every
message of type ExtendedPrime carrying an ExtendedPrimeMessage `m`, Handle
dispatches exactly one message, of type MapKey, whose Value is the string
`f m`; on Start and on Stop it dispatches nothing. Hence, over any sequence
of deliveries whose ExtendedPrime messages all carry an ExtendedPrimeMessage,
the worker does not panic, the dispatched messages are the MapKey messages of
the ExtendedPrime messages received, in the same order, and there are as many
of them as ExtendedPrime messages received. -/
theorem mapper_maps_each_extended_prime (f : ExtendedPrimeMapperFunc) (proc : Process)
    (now : Nat) (msg : Message) (ds : List (Nat × Message)) :
    (∀ m, msg.MsgType = TypeExtendedPrime → msg.Value = Value.extendedPrimeMessage m →
      (PrimeMapperProcess.Handle now proc ⟨f⟩ msg).panicked = false ∧
      dispatched (PrimeMapperProcess.Handle now proc ⟨f⟩ msg).effects =
        [{ MsgType := TypeMapKey, Timestamp := now, Value := Value.string (f m),
           Forward := false }]) ∧
    (msg.MsgType = MessageTypeStart ∨ msg.MsgType = MessageTypeStop →
      (PrimeMapperProcess.Handle now proc ⟨f⟩ msg).panicked = false ∧
      dispatched (PrimeMapperProcess.Handle now proc ⟨f⟩ msg).effects = []) ∧
    ((∀ d ∈ ds, d.2.MsgType = TypeExtendedPrime →
        ∃ m, d.2.Value = Value.extendedPrimeMessage m) →
      (runHandler (PrimeMapperProcess.deliver proc) ⟨f⟩ ds).panicked = false ∧
      dispatched (runHandler (PrimeMapperProcess.deliver proc) ⟨f⟩ ds).effects =
        ds.filterMap (fun d => (extendedPayload d.2).map (mapKeyMessage f d.1)) ∧
      (dispatched (runHandler (PrimeMapperProcess.deliver proc) ⟨f⟩ ds).effects).length =
        (ds.filter (fun d => d.2.MsgType = TypeExtendedPrime)).length) := by
  have h3 : ¬ (TypeExtendedPrime = MessageTypeStart) := by decide
  have h4 : ¬ (TypeExtendedPrime = MessageTypeStop) := by decide
  have h7 : ¬ (MessageTypeStop = MessageTypeStart) := by decide
  refine ⟨?_, ?_, ?_⟩
  · intro m ht hv
    simp [PrimeMapperProcess.Handle, ht, hv, h3, h4, dispatched]
  · rintro (ht | ht)
    · simp [PrimeMapperProcess.Handle, ht, dispatched]
    · simp [PrimeMapperProcess.Handle, ht, h7, dispatched]
  · intro h
    obtain ⟨h1, h2⟩ := PrimeMapperProcess.run_well_shaped proc ⟨f⟩ ds h
    refine ⟨h1, h2, ?_⟩
    rw [h2]
    clear h1 h2
    induction ds with
    | nil => rfl
    | cons d ds ih =>
      have ih2 := ih (fun e he => h e (List.mem_cons_of_mem _ he))
      by_cases ht : d.2.MsgType = TypeExtendedPrime
      · obtain ⟨m, hm⟩ := h d (List.mem_cons_self _ _) ht
        have hx : extendedPayload d.2 = some m := by simp [extendedPayload, ht, hm]
        simp only [List.filterMap_cons, List.filter_cons, hx, ht, Option.map_some', decide_True,
          if_true, List.length_cons, ih2]
      · have hx : extendedPayload d.2 = none := by simp [extendedPayload, ht]
        simp only [List.filterMap_cons, List.filter_cons, hx, ht, Option.map_none',
          decide_False, Bool.false_eq_true, if_false, ih2]

/-- C8 at the deliveries Start, ExtendedPrime, ExtendedPrime, Stop: two
MapKey messages are dispatched. -/
theorem mapper_maps_each_extended_prime_witness :
    (∀ d ∈ [(0, controlMessage MessageTypeStart), (1, sampleExtendedMessage),
            (2, sampleExtendedMessage), (3, controlMessage MessageTypeStop)],
        d.2.MsgType = TypeExtendedPrime → ∃ m, d.2.Value = Value.extendedPrimeMessage m) ∧
    dispatched (PrimeMapperProcess.Handle 1 ⟨"Rev Mapper"⟩ ⟨fun _ => "0000"⟩
      sampleExtendedMessage).effects =
        [{ MsgType := TypeMapKey, Timestamp := 1, Value := Value.string "0000",
           Forward := false }] ∧
    (dispatched (runHandler (PrimeMapperProcess.deliver ⟨"Rev Mapper"⟩) ⟨fun _ => "0000"⟩
      [(0, controlMessage MessageTypeStart), (1, sampleExtendedMessage),
       (2, sampleExtendedMessage), (3, controlMessage MessageTypeStop)]).effects).length =
      ([(0, controlMessage MessageTypeStart), (1, sampleExtendedMessage),
        (2, sampleExtendedMessage), (3, controlMessage MessageTypeStop)].filter
          (fun d => d.2.MsgType = TypeExtendedPrime)).length :=
  have hshape : ∀ d ∈ [(0, controlMessage MessageTypeStart), (1, sampleExtendedMessage),
            (2, sampleExtendedMessage), (3, controlMessage MessageTypeStop)],
        d.2.MsgType = TypeExtendedPrime → ∃ m, d.2.Value = Value.extendedPrimeMessage m := by
    intro d hd ht
    simp only [List.mem_cons, List.mem_singleton, List.not_mem_nil, or_false] at hd
    rcases hd with h | h | h | h
    · rw [h] at ht; exact absurd ht (by decide)
    · exact ⟨sampleExtended, by rw [h]; rfl⟩
    · exact ⟨sampleExtended, by rw [h]; rfl⟩
    · rw [h] at ht; exact absurd ht (by decide)
  have h := mapper_maps_each_extended_prime (fun _ => "0000") ⟨"Rev Mapper"⟩ 1
    sampleExtendedMessage
    [(0, controlMessage MessageTypeStart), (1, sampleExtendedMessage),
     (2, sampleExtendedMessage), (3, controlMessage MessageTypeStop)]
  ⟨hshape, (h.1 sampleExtended rfl rfl).2, (h.2.2 hshape).2.2⟩

/-! ## C3: PrimeMapperOutput -/

theorem runHandler_cons {σ α : Type} (handle : σ → α → Outcome σ) (s : σ) (m : α)
    (ms : List α) :
    runHandler handle s (m :: ms) =
      if (handle s m).panicked then handle s m
      else
        { handler := (runHandler handle (handle s m).handler ms).handler,
          effects := (handle s m).effects ++ (runHandler handle (handle s m).handler ms).effects,
          panicked := (runHandler handle (handle s m).handler ms).panicked } := rfl

theorem runHandler_append {σ α : Type} (handle : σ → α → Outcome σ) (s : σ) (a b : List α) :
    runHandler handle s (a ++ b) =
      if (runHandler handle s a).panicked then runHandler handle s a
      else
        { handler := (runHandler handle (runHandler handle s a).handler b).handler,
          effects := (runHandler handle s a).effects ++
            (runHandler handle (runHandler handle s a).handler b).effects,
          panicked := (runHandler handle (runHandler handle s a).handler b).panicked } := by
  induction a generalizing s with
  | nil => simp [runHandler]
  | cons m ms ih =>
    rw [List.cons_append, runHandler_cons, runHandler_cons, ih]
    by_cases hp : (handle s m).panicked = true
    · simp [hp]
    · by_cases hq : (runHandler handle (handle s m).handler ms).panicked = true
      · simp [hp, hq]
      · simp [hp, hq, List.append_assoc]

theorem mapGet_mapIncrement (key k : String) (d : List (String × Int)) :
    mapGet k (mapIncrement key d) = if k = key then mapGet key d + 1 else mapGet k d := by
  induction d with
  | nil =>
    by_cases h : k = key
    · simp [mapIncrement, mapGet, h]
    · have h2 : ¬ key = k := fun e => h e.symm
      simp [mapIncrement, mapGet, h, h2]
  | cons kv rest ih =>
    obtain ⟨k0, v0⟩ := kv
    by_cases h0 : k0 = key
    · by_cases h : k = key
      · simp [mapIncrement, mapGet, h0, h]
      · have h2 : ¬ key = k := fun e => h e.symm
        simp [mapIncrement, mapGet, h0, h, h2]
    · by_cases h : k = key
      · subst h
        simp [mapIncrement, mapGet, h0, ih]
      · by_cases h3 : k0 = k
        · simp [mapIncrement, mapGet, h0, h, h3]
        · simp [mapIncrement, mapGet, h0, h, h3, ih]

theorem keys_mapIncrement (key : String) (d : List (String × Int)) :
    (mapIncrement key d).map Prod.fst =
      if key ∈ d.map Prod.fst then d.map Prod.fst else d.map Prod.fst ++ [key] := by
  induction d with
  | nil => simp [mapIncrement]
  | cons kv rest ih =>
    obtain ⟨k0, v0⟩ := kv
    by_cases h0 : k0 = key
    · simp [mapIncrement, h0]
    · have h1 : ¬ key = k0 := fun e => h0 e.symm
      simp only [mapIncrement, h0, if_false, List.map_cons, ih, List.mem_cons, h1, false_or]
      split <;> simp

theorem countKeys_snoc (ks : List String) (k : String) (d : List (String × Int)) :
    countKeys (ks ++ [k]) d = mapIncrement k (countKeys ks d) := by
  simp [countKeys, List.foldl_append]

theorem countKeys_spec (ks : List String) :
    ((countKeys ks []).map Prod.fst).Nodup ∧
    (∀ k, k ∈ (countKeys ks []).map Prod.fst ↔ k ∈ ks) ∧
    (∀ k, mapGet k (countKeys ks []) = (ks.count k : Int)) := by
  induction ks using List.reverseRecOn with
  | nil => simp [countKeys, mapGet]
  | append_singleton ks key ih =>
    obtain ⟨h1, h2, h3⟩ := ih
    rw [countKeys_snoc]
    refine ⟨?_, ?_, ?_⟩
    · rw [keys_mapIncrement]
      split
      · exact h1
      · rename_i hk
        exact List.Nodup.append h1 (List.nodup_singleton _) (by simpa using hk)
    · intro k
      rw [keys_mapIncrement]
      split
      · rename_i hk
        rw [h2] at hk ⊢
        simp only [List.mem_append, List.mem_singleton]
        constructor
        · exact Or.inl
        · rintro (h | h)
          · exact h
          · rw [h]; exact hk
      · simp [h2]
    · intro k
      rw [mapGet_mapIncrement, List.count_append]
      by_cases h : k = key
      · simp [h, h3]
      · have h' : ¬ key = k := fun e => h e.symm
        simp [h, h3, h', List.count_cons]

theorem eq_map_mapGet_of_nodup (d : List (String × Int)) (h : (d.map Prod.fst).Nodup) :
    d = (d.map Prod.fst).map (fun k => (k, mapGet k d)) := by
  induction d with
  | nil => rfl
  | cons kv rest ih =>
    obtain ⟨k0, v0⟩ := kv
    simp only [List.map_cons, List.nodup_cons] at h
    have hrest := ih h.2
    simp only [List.map_cons, mapGet, if_true, List.map_map, List.cons.injEq, true_and]
    rw [List.map_map] at hrest
    conv_lhs => rw [hrest]
    apply List.map_congr_left
    intro kv hkv
    have hne : ¬ k0 = kv.1 := by
      intro e
      exact h.1 (e ▸ List.mem_map_of_mem Prod.fst hkv)
    simp [Function.comp, hne]

theorem String.join_replicate_empty_append (n : Nat) (xs : List String) :
    String.join (List.replicate n "" ++ xs) = String.join xs := by
  have h : ∀ (m : Nat) (acc : String),
      List.foldl (fun r s => r ++ s) acc (List.replicate m "") = acc := by
    intro m
    induction m with
    | zero => intro acc; rfl
    | succ m ih =>
      intro acc
      simp only [List.replicate_succ, List.foldl_cons]
      rw [ih]
      exact String.append_empty acc
  simp only [String.join, List.foldl_append, h]

theorem String.empty_le (s : String) : "" ≤ s := by
  rw [String.le_iff_toList_le]
  exact List.nil_le

theorem sortStrings_replicate_append (n : Nat) (xs ys : List String) (h : xs.Perm ys) :
    sortStrings (List.replicate n "" ++ xs) = List.replicate n "" ++ sortStrings ys := by
  apply List.eq_of_perm_of_sorted (r := fun a b : String => a ≤ b)
  · refine (List.perm_insertionSort _ _).trans ?_
    exact List.Perm.append_left _ (h.trans (List.perm_insertionSort _ _).symm)
  · exact List.sorted_insertionSort _ _
  · refine List.pairwise_append.2 ⟨?_, List.sorted_insertionSort _ _, ?_⟩
    · exact List.pairwise_replicate.2 (Or.inr (le_refl _))
    · intro a ha b _
      rw [List.eq_of_mem_replicate ha]
      exact String.empty_le b

theorem Nat.digitChar_ne_comma (n : Nat) : Nat.digitChar n ≠ ',' := by
  rcases Nat.lt_or_ge n 16 with h | h
  · interval_cases n <;> decide
  · unfold Nat.digitChar
    repeat rw [if_neg (by omega)]
    decide

theorem Nat.toDigitsCore_no_comma (f n : Nat) (ds : List Char) (h : ',' ∉ ds) :
    ',' ∉ Nat.toDigitsCore 10 f n ds := by
  induction f generalizing n ds with
  | zero => simpa [Nat.toDigitsCore] using h
  | succ f ih =>
    have hc : ',' ∉ Nat.digitChar (n % 10) :: ds := by
      simp only [List.mem_cons, not_or]
      exact ⟨fun e => Nat.digitChar_ne_comma _ e.symm, h⟩
    simp only [Nat.toDigitsCore]
    split
    · exact hc
    · exact ih _ _ hc

theorem Nat.repr_no_comma (n : Nat) : ',' ∉ (toString n).data := by
  show ',' ∉ (Nat.repr n).data
  simp only [Nat.repr, List.asString, Nat.toDigits]
  exact Nat.toDigitsCore_no_comma _ _ _ (by simp)

theorem List.append_cons_inj_of_first {α : Type} (a : α) :
    ∀ (x₁ x₂ z₁ z₂ : List α), a ∉ x₁ → a ∉ x₂ → x₁ ++ a :: z₁ = x₂ ++ a :: z₂ →
      x₁ = x₂ ∧ z₁ = z₂
  | [], [], _, _, _, _, h => ⟨rfl, by simpa using h⟩
  | [], b :: x₂, _, _, _, h₂, h => by
    simp only [List.nil_append, List.cons_append, List.cons.injEq] at h
    exact absurd (List.mem_cons.2 (Or.inl h.1)) h₂
  | c :: x₁, [], _, _, h₁, _, h => by
    simp only [List.nil_append, List.cons_append, List.cons.injEq] at h
    exact absurd (List.mem_cons.2 (Or.inl h.1.symm)) h₁
  | c :: x₁, b :: x₂, z₁, z₂, h₁, h₂, h => by
    simp only [List.cons_append, List.cons.injEq] at h
    obtain ⟨r1, r2⟩ := List.append_cons_inj_of_first a x₁ x₂ z₁ z₂
      (fun m => h₁ (List.mem_cons_of_mem _ m)) (fun m => h₂ (List.mem_cons_of_mem _ m)) h.2
    exact ⟨by rw [h.1, r1], r2⟩

theorem mapperLine_natCast (k : String) (n : Nat) :
    mapperLine k (n : Int) = k ++ "," ++ toString n ++ "\n" := rfl

theorem countLine_injective (ks : List String) (k₁ k₂ : String)
    (h : countLine ks k₁ = countLine ks k₂) : k₁ = k₂ := by
  have hd := congrArg (fun s => s.data.reverse) h
  simp only [countLine, String.data_append, List.reverse_append] at hd
  have e : ("," : String).data.reverse = [','] := rfl
  rw [e] at hd
  simp only [List.singleton_append, ← List.append_assoc] at hd
  have hn : ∀ n : Nat, ',' ∉ ("\n" : String).data.reverse ++ (toString n).data.reverse := by
    intro n hm
    rcases List.mem_append.1 hm with h1 | h1
    · revert h1; decide
    · exact Nat.repr_no_comma n (List.mem_reverse.1 h1)
  have := (List.append_cons_inj_of_first ',' _ _ _ _ (hn _) (hn _) hd).2
  exact String.ext (List.reverse_injective this)

theorem expectedLines_nodup (ks : List String) : (expectedLines ks).Nodup :=
  List.Nodup.map (fun a b h => countLine_injective ks a b h) (List.nodup_dedup ks)

theorem expectedLines_nonempty (ks : List String) : "" ∉ expectedLines ks := by
  intro h
  obtain ⟨k, _, hk⟩ := List.mem_map.1 h
  have hl := congrArg String.length hk
  simp only [countLine, String.length_append] at hl
  have h1 : ("\n" : String).length = 1 := rfl
  have h0 : ("" : String).length = 0 := rfl
  omega

theorem PrimeMapperOutput.run_keys (iter : List (String × Int) → List (String × Int))
    (proc : Process) (ms : List Message)
    (hms : ∀ m ∈ ms, m.MsgType = TypeMapKey ∧ ∃ k, m.Value = Value.string k)
    (o : PrimeMapperOutput) (d : List (String × Int)) (hd : o.Data = some d) :
    runHandler (PrimeMapperOutput.Handle iter proc) o ms =
      { handler := { o with Data := some (countKeys (ms.filterMap stringPayload) d) },
        effects := [], panicked := false } := by
  induction ms generalizing o d with
  | nil =>
    cases o
    simp only at hd
    simp [runHandler, countKeys, hd]
  | cons m ms ih =>
    obtain ⟨ht, k, hk⟩ := hms m (List.mem_cons_self _ _)
    have h5 : ¬ (TypeMapKey = MessageTypeStart) := by decide
    have hp : stringPayload m = some k := by simp [stringPayload, ht, hk]
    have hstep : PrimeMapperOutput.Handle iter proc o m =
        { handler := { o with Data := some (mapIncrement k d) }, effects := [],
          panicked := false } := by
      simp [PrimeMapperOutput.Handle, ht, hk, h5, hd]
    rw [runHandler_cons, hstep]
    simp only [Bool.false_eq_true, if_false, List.nil_append]
    rw [ih (fun x hx => hms x (List.mem_cons_of_mem _ hx)) _ (mapIncrement k d) rfl]
    simp [List.filterMap_cons, hp, countKeys]

theorem PrimeMapperOutput.lines_perm (iter : List (String × Int) → List (String × Int))
    (hiter : ∀ d, (iter d).Perm d) (ks : List String) :
    ((iter (countKeys ks [])).map (fun kv => mapperLine kv.1 kv.2)).Perm (expectedLines ks) := by
  obtain ⟨h1, h2, h3⟩ := countKeys_spec ks
  refine ((hiter _).map _).trans ?_
  have hkeys : ((countKeys ks []).map Prod.fst).Perm ks.dedup :=
    (List.perm_ext_iff_of_nodup h1 (List.nodup_dedup ks)).2
      (fun k => by rw [h2, List.mem_dedup])
  have hrepr : (countKeys ks []).map (fun kv => mapperLine kv.1 kv.2) =
      ((countKeys ks []).map Prod.fst).map (countLine ks) := by
    conv_lhs => rw [eq_map_mapGet_of_nodup _ h1]
    rw [List.map_map]
    apply List.map_congr_left
    intro k _
    simp only [Function.comp, h3]
    rfl
  rw [hrepr]
  exact hkeys.map _

/-- C3: PrimeMapperOutput counts map results and writes one entry per key.
For every sequence of MapKey messages with string payloads `ks` delivered
between Start and Stop to a freshly constructed PrimeMapperOutput, whatever
the order in which the map is iterated, the worker does not panic and the
texts written are exactly the header `KeyHeader + ",count\n"` (on Start) and
(on Stop) the concatenation, in ascending order, of one line
`<key>,<count>\n` per distinct key, where the count is the number of
occurrences of the key in `ks`; these lines are pairwise different, none is
empty, and the counts sum to the number of messages. -/
theorem mapper_output_writes_counts (iter : List (String × Int) → List (String × Int))
    (hiter : ∀ d, (iter d).Perm d) (proc : Process) (filename keyHeader : String)
    (start stop : Message) (ms : List Message)
    (hstart : start.MsgType = MessageTypeStart) (hstop : stop.MsgType = MessageTypeStop)
    (hms : ∀ m ∈ ms, m.MsgType = TypeMapKey ∧ ∃ k, m.Value = Value.string k) :
    (runHandler (PrimeMapperOutput.Handle iter proc)
      (NewPrimeMapperOutput filename keyHeader) (start :: (ms ++ [stop]))).panicked = false ∧
    written (runHandler (PrimeMapperOutput.Handle iter proc)
      (NewPrimeMapperOutput filename keyHeader) (start :: (ms ++ [stop]))).effects =
      [Text.lit (keyHeader ++ ",count\n"),
       Text.lit (String.join (sortStrings (expectedLines (ms.filterMap stringPayload))))] ∧
    (sortStrings (expectedLines (ms.filterMap stringPayload))).Sorted (fun a b => a ≤ b) ∧
    (sortStrings (expectedLines (ms.filterMap stringPayload))).Perm
      (expectedLines (ms.filterMap stringPayload)) ∧
    (expectedLines (ms.filterMap stringPayload)).Nodup ∧
    "" ∉ expectedLines (ms.filterMap stringPayload) ∧
    (ms.filterMap stringPayload).length = ms.length ∧
    (((ms.filterMap stringPayload).dedup.map
      (fun k => (ms.filterMap stringPayload).count k)).sum = ms.length) := by
  have h1 : ¬ (MessageTypeStop = MessageTypeStart) := by decide
  have h3 : ¬ (MessageTypeStop = TypeMapKey) := by decide
  have hlen : (ms.filterMap stringPayload).length = ms.length := by
    clear hstart hstop
    induction ms with
    | nil => rfl
    | cons m ms ih =>
      obtain ⟨ht, k, hk⟩ := hms m (List.mem_cons_self _ _)
      have hp : stringPayload m = some k := by simp [stringPayload, ht, hk]
      simp [List.filterMap_cons, hp, ih (fun x hx => hms x (List.mem_cons_of_mem _ hx))]
  have hs : PrimeMapperOutput.Handle iter proc (NewPrimeMapperOutput filename keyHeader) start =
      { handler := NewPrimeMapperOutput filename keyHeader,
        effects :=
          [Effect.log "[%s] - Starting..." [FmtArg.str proc.Name],
           Effect.log "[%s] - Writing output header..." [FmtArg.str proc.Name],
           Effect.write (Text.lit (keyHeader ++ ",count\n"))],
        panicked := false } := by
    simp [PrimeMapperOutput.Handle, hstart, NewPrimeMapperOutput]
  have hk := PrimeMapperOutput.run_keys iter proc ms hms
    (NewPrimeMapperOutput filename keyHeader) [] rfl
  have hrun : runHandler (PrimeMapperOutput.Handle iter proc)
      (NewPrimeMapperOutput filename keyHeader) (start :: (ms ++ [stop])) =
      { handler := { NewPrimeMapperOutput filename keyHeader with
          Data := some (countKeys (ms.filterMap stringPayload) []) },
        effects :=
          [Effect.log "[%s] - Starting..." [FmtArg.str proc.Name],
           Effect.log "[%s] - Writing output header..." [FmtArg.str proc.Name],
           Effect.write (Text.lit (keyHeader ++ ",count\n")),
           Effect.write (Text.lit (String.join (sortStrings
             (List.replicate (countKeys (ms.filterMap stringPayload) []).length "" ++
               (iter (countKeys (ms.filterMap stringPayload) [])).map
                 (fun kv => mapperLine kv.1 kv.2))))),
           Effect.close,
           Effect.log "[%s] - Exiting..." [FmtArg.str proc.Name]],
        panicked := false } := by
    rw [runHandler_cons, hs]
    simp only [Bool.false_eq_true, if_false]
    rw [runHandler_append, hk]
    simp [runHandler, PrimeMapperOutput.Handle, hstop, h1, h3]
  refine ⟨?_, ?_, List.sorted_insertionSort _ _, List.perm_insertionSort _ _,
    expectedLines_nodup _, expectedLines_nonempty _, hlen, ?_⟩
  · rw [hrun]
  · rw [hrun]
    simp only [written]
    rw [sortStrings_replicate_append _ _ _
      (PrimeMapperOutput.lines_perm iter hiter (ms.filterMap stringPayload)),
      String.join_replicate_empty_append]
  · rw [← hlen]
    exact List.sum_map_count_dedup_eq_length _

/-- C3 at the keys `7`, `3`, `7`, with the map iterated in reverse order. -/
theorem mapper_output_writes_counts_witness :
    (∀ d : List (String × Int), (List.reverse d).Perm d) ∧
    (controlMessage MessageTypeStart).MsgType = MessageTypeStart ∧
    (controlMessage MessageTypeStop).MsgType = MessageTypeStop ∧
    (∀ m ∈ [mapKeyOf "7", mapKeyOf "3", mapKeyOf "7"],
      m.MsgType = TypeMapKey ∧ ∃ k, m.Value = Value.string k) ∧
    written (runHandler (PrimeMapperOutput.Handle List.reverse ⟨"Last Digit Output"⟩)
      (NewPrimeMapperOutput "out.csv" "lastDigit")
      (controlMessage MessageTypeStart ::
        ([mapKeyOf "7", mapKeyOf "3", mapKeyOf "7"] ++
          [controlMessage MessageTypeStop]))).effects =
      [Text.lit ("lastDigit" ++ ",count\n"),
       Text.lit (String.join (sortStrings (expectedLines
         ([mapKeyOf "7", mapKeyOf "3", mapKeyOf "7"].filterMap stringPayload))))] :=
  have hms : ∀ m ∈ [mapKeyOf "7", mapKeyOf "3", mapKeyOf "7"],
      m.MsgType = TypeMapKey ∧ ∃ k, m.Value = Value.string k := by
    intro m hm
    simp only [List.mem_cons, List.mem_singleton, List.not_mem_nil, or_false] at hm
    rcases hm with h | h | h <;> rw [h] <;> exact ⟨rfl, _, rfl⟩
  ⟨fun d => List.reverse_perm d, rfl, rfl, hms,
   (mapper_output_writes_counts List.reverse (fun d => List.reverse_perm d)
      ⟨"Last Digit Output"⟩ "out.csv" "lastDigit" (controlMessage MessageTypeStart)
      (controlMessage MessageTypeStop) [mapKeyOf "7", mapKeyOf "3", mapKeyOf "7"]
      rfl rfl hms).2.1⟩

/-! ## C2: PrimeRevSizeOutput -/

theorem PrimeRevSizeOutput.handle_extended (proc : Process) (o : PrimeRevSizeOutput)
    (m : Message) (e : ExtendedPrimeMessage) (ht : m.MsgType = TypeExtendedPrime)
    (hv : m.Value = Value.extendedPrimeMessage e) :
    PrimeRevSizeOutput.Handle proc o m =
      { handler := o.step e,
        effects := if e.Revs ≠ o.LastRev then [Effect.write o.row] else [],
        panicked := false } := by
  have h3 : ¬ (TypeExtendedPrime = MessageTypeStart) := by decide
  by_cases hr : e.Revs = o.LastRev
  · simp [PrimeRevSizeOutput.Handle, PrimeRevSizeOutput.step, ht, hv, h3, hr]
  · simp [PrimeRevSizeOutput.Handle, PrimeRevSizeOutput.step, ht, hv, h3, hr]

theorem PrimeRevSizeOutput.run_extended (proc : Process) (stop : Message)
    (hstop : stop.MsgType = MessageTypeStop) (ms : List Message)
    (hms : ∀ m ∈ ms, m.MsgType = TypeExtendedPrime ∧
      ∃ e, m.Value = Value.extendedPrimeMessage e) (o : PrimeRevSizeOutput) :
    (runHandler (PrimeRevSizeOutput.Handle proc) o (ms ++ [stop])).panicked = false ∧
    written (runHandler (PrimeRevSizeOutput.Handle proc) o (ms ++ [stop])).effects =
      PrimeRevSizeOutput.rows o (ms.filterMap extendedPayload) := by
  have h1 : ¬ (MessageTypeStop = MessageTypeStart) := by decide
  have h2 : ¬ (MessageTypeStop = TypeExtendedPrime) := by decide
  induction ms generalizing o with
  | nil =>
    simp [runHandler, PrimeRevSizeOutput.Handle, hstop, h1, h2, written,
      PrimeRevSizeOutput.rows]
  | cons m ms ih =>
    obtain ⟨ht, e, he⟩ := hms m (List.mem_cons_self _ _)
    have hp : extendedPayload m = some e := by simp [extendedPayload, ht, he]
    obtain ⟨i1, i2⟩ := ih (fun x hx => hms x (List.mem_cons_of_mem _ hx)) (o.step e)
    rw [List.cons_append, runHandler_cons, PrimeRevSizeOutput.handle_extended proc o m e ht he]
    simp only [Bool.false_eq_true, if_false, List.filterMap_cons, hp, PrimeRevSizeOutput.rows]
    refine ⟨i1, ?_⟩
    rw [written_append, i2]
    by_cases hr : e.Revs = o.LastRev
    · simp [hr, written]
    · simp [hr, written]

theorem List.dedup_replicate_succ_append (n r : Nat) (xs : List Nat) (h : r ∉ xs) :
    (List.replicate (n + 1) r ++ xs).dedup = r :: xs.dedup := by
  induction n with
  | zero => simpa using List.dedup_cons_of_not_mem h
  | succ n ih =>
    rw [List.replicate_succ, List.cons_append, List.dedup_cons_of_mem, ih]
    simp [List.replicate_succ]

theorem List.min?_max?_of_strictly_increasing (xs : List Nat) (f l : Nat)
    (hinc : xs.Pairwise (fun a b => a < b)) (hf : xs.head? = some f)
    (hl : xs.getLast? = some l) :
    xs.min? = some f ∧ xs.max? = some l ∧ f ≤ l := by
  obtain ⟨t, ht⟩ := List.head?_eq_some_iff.1 hf
  obtain ⟨i, hi⟩ := List.getLast?_eq_some_iff.1 hl
  have hmin : ∀ b ∈ xs, f ≤ b := by
    intro b hb
    rw [ht] at hb hinc
    rcases List.mem_cons.1 hb with h | h
    · exact le_of_eq h.symm
    · exact le_of_lt (List.rel_of_pairwise_cons hinc h)
  have hmax : ∀ b ∈ xs, b ≤ l := by
    intro b hb
    rw [hi] at hb hinc
    rcases List.mem_append.1 hb with h | h
    · exact le_of_lt ((List.pairwise_append.1 hinc).2.2 b h l (List.mem_singleton.2 rfl))
    · exact le_of_eq (List.mem_singleton.1 h)
  have hfm : f ∈ xs := by rw [ht]; exact List.mem_cons_self _ _
  have hlm : l ∈ xs := by rw [hi]; exact List.mem_append_right _ (List.mem_singleton.2 rfl)
  exact ⟨List.min?_eq_some_iff'.2 ⟨hfm, hmin⟩, List.max?_eq_some_iff'.2 ⟨hlm, hmax⟩,
    hmin l hlm⟩

theorem subUint64_of_le (a b : Nat) (hab : b ≤ a) (ha : a < uint64Size) :
    subUint64 a b = a - b := by
  unfold subUint64
  have hb : b % uint64Size = b := Nat.mod_eq_of_lt (lt_of_le_of_lt hab ha)
  rw [hb]
  have e : a + uint64Size - b = (a - b) + uint64Size := by omega
  rw [e, Nat.add_mod_right]
  exact Nat.mod_eq_of_lt (lt_of_le_of_lt (Nat.sub_le _ _) ha)

theorem IncreasingPrimes.append_left {xs ys : List ExtendedPrimeMessage}
    (h : IncreasingPrimes (xs ++ ys)) : IncreasingPrimes xs := by
  obtain ⟨h1, h2, h3⟩ := h
  rw [List.map_append] at h1
  exact ⟨(List.pairwise_append.1 h1).1, fun e he => h2 e (List.mem_append_left _ he),
    fun e he => h3 e (List.mem_append_left _ he)⟩

theorem IncreasingPrimes.append_right {xs ys : List ExtendedPrimeMessage}
    (h : IncreasingPrimes (xs ++ ys)) : IncreasingPrimes ys := by
  obtain ⟨h1, h2, h3⟩ := h
  rw [List.map_append] at h1
  exact ⟨(List.pairwise_append.1 h1).2.1, fun e he => h2 e (List.mem_append_right _ he),
    fun e he => h3 e (List.mem_append_right _ he)⟩

theorem IncreasingPrimes.revs_le {xs ys : List ExtendedPrimeMessage}
    (h : IncreasingPrimes (xs ++ ys)) {x y : ExtendedPrimeMessage} (hx : x ∈ xs)
    (hy : y ∈ ys) : x.Revs ≤ y.Revs := by
  obtain ⟨h1, h2, _⟩ := h
  rw [List.map_append] at h1
  have hlt : x.Prime < y.Prime :=
    (List.pairwise_append.1 h1).2.2 x.Prime (List.mem_map_of_mem _ hx) y.Prime
      (List.mem_map_of_mem _ hy)
  rw [h2 x (List.mem_append_left _ hx), h2 y (List.mem_append_right _ hy)]
  exact Nat.div_le_div_right (le_of_lt hlt)

/-- The row of a closed group: when all of `pre` lies in revolution `r` and no
message of `post` does, the expected row of `r` is computed from `pre` alone. -/
theorem expectedRow_of_group (pre post : List ExtendedPrimeMessage) (r f l : Nat)
    (hinc : IncreasingPrimes pre)
    (hrev : ∀ x ∈ pre, x.Revs = r) (hpost : ∀ y ∈ post, y.Revs ≠ r)
    (hf : (pre.map (fun e => e.Prime)).head? = some f)
    (hl : (pre.map (fun e => e.Prime)).getLast? = some l) :
    expectedRow (pre ++ post) r =
      { rev := r, start := f, span := subUint64 l f, count := (pre.length : Int) } := by
  have hg : revolution (pre ++ post) r = pre := by
    unfold revolution
    rw [List.filter_append, List.filter_eq_self.2 (fun a ha => by simpa using hrev a ha),
      List.filter_eq_nil_iff.2 (fun a ha => by simpa using hpost a ha), List.append_nil]
  obtain ⟨m1, m2, m3⟩ := List.min?_max?_of_strictly_increasing _ f l hinc.1 hf hl
  have hlt : l < uint64Size := by
    obtain ⟨i, hi⟩ := List.getLast?_eq_some_iff.1 hl
    have : l ∈ pre.map (fun e => e.Prime) := by
      rw [hi]; exact List.mem_append_right _ (List.mem_singleton.2 rfl)
    obtain ⟨e, he, rfl⟩ := List.mem_map.1 this
    exact hinc.2.2 e he
  simp only [expectedRow, hg, smallestPrime, largestPrime, m1, m2, Option.getD_some,
    subUint64_of_le l f m3 hlt]

theorem expectedRow_of_later (pre post : List ExtendedPrimeMessage) (r : Nat)
    (hpre : ∀ x ∈ pre, x.Revs ≠ r) :
    expectedRow (pre ++ post) r = expectedRow post r := by
  have hg : revolution (pre ++ post) r = revolution post r := by
    unfold revolution
    rw [List.filter_append, List.filter_eq_nil_iff.2 (fun a ha => by simpa using hpre a ha),
      List.nil_append]
  simp only [expectedRow, hg]

theorem expectedRows_split (pre post : List ExtendedPrimeMessage) (r f l : Nat)
    (hne : pre ≠ []) (hinc : IncreasingPrimes pre)
    (hrev : ∀ x ∈ pre, x.Revs = r) (hpost : ∀ y ∈ post, y.Revs ≠ r)
    (hf : (pre.map (fun e => e.Prime)).head? = some f)
    (hl : (pre.map (fun e => e.Prime)).getLast? = some l) :
    expectedRows (pre ++ post) =
      { rev := r, start := f, span := subUint64 l f, count := (pre.length : Int) } ::
        expectedRows post := by
  have hrep : pre.map (fun e => e.Revs) = List.replicate (pre.length - 1 + 1) r := by
    rw [List.eq_replicate_iff]
    refine ⟨?_, ?_⟩
    · have := List.length_pos.2 hne
      rw [List.length_map]; omega
    · intro b hb
      obtain ⟨e, he, rfl⟩ := List.mem_map.1 hb
      exact hrev e he
  have hnot : r ∉ post.map (fun e => e.Revs) := by
    intro hm
    obtain ⟨e, he, hr⟩ := List.mem_map.1 hm
    exact hpost e he hr
  unfold expectedRows
  rw [List.map_append, hrep, List.dedup_replicate_succ_append _ _ _ hnot, List.map_cons,
    expectedRow_of_group pre post r f l hinc hrev hpost hf hl]
  congr 1
  apply List.map_congr_left
  intro q hq
  have hq2 : q ∈ post.map (fun e => e.Revs) := List.mem_dedup.1 hq
  apply expectedRow_of_later
  intro x hx hxr
  exact hnot (by rw [← hxr, hrev x hx] at hq2; exact hq2)

theorem intColumns_row (o : PrimeRevSizeOutput) :
    intColumns o.row =
      some { rev := o.LastRev, start := o.FirstRevPrime,
             span := subUint64 o.LastPrime o.FirstRevPrime, count := o.RevCount } := by
  simp [intColumns, PrimeRevSizeOutput.row]

/-- The invariant of `PrimeRevSizeOutput`: if the fields describe the open
group `pre` (its revolution, its first and last prime, its size), then the
rows written for the remaining payloads `es` and on Stop are the expected
rows of `pre ++ es`. -/
theorem PrimeRevSizeOutput.rows_spec (es : List ExtendedPrimeMessage) :
    ∀ (pre : List ExtendedPrimeMessage) (o : PrimeRevSizeOutput), pre ≠ [] →
      (∀ x ∈ pre, x.Revs = o.LastRev) →
      (pre.map (fun e => e.Prime)).head? = some o.FirstRevPrime →
      (pre.map (fun e => e.Prime)).getLast? = some o.LastPrime →
      o.RevCount = (pre.length : Int) →
      IncreasingPrimes (pre ++ es) →
      (PrimeRevSizeOutput.rows o es).map intColumns = (expectedRows (pre ++ es)).map some := by
  induction es with
  | nil =>
    intro pre o hne hrev hf hl hc hinc
    have hs := expectedRows_split pre [] o.LastRev o.FirstRevPrime o.LastPrime hne
      hinc.append_left hrev (fun y hy => absurd hy (List.not_mem_nil y)) hf hl
    rw [hs]
    simp [PrimeRevSizeOutput.rows, intColumns_row, hc, expectedRows]
  | cons e rest ih =>
    intro pre o hne hrev hf hl hc hinc
    by_cases hr : e.Revs = o.LastRev
    · have hstep : o.step e = { o with LastPrime := e.Prime, RevCount := o.RevCount + 1 } := by
        simp [PrimeRevSizeOutput.step, hr]
      have hrows : PrimeRevSizeOutput.rows o (e :: rest) =
          PrimeRevSizeOutput.rows (o.step e) rest := by
        simp [PrimeRevSizeOutput.rows, hr]
      have happ : pre ++ e :: rest = (pre ++ [e]) ++ rest := by simp
      rw [hrows, happ]
      apply ih (pre ++ [e]) (o.step e)
      · simp
      · intro x hx
        rw [hstep]
        rcases List.mem_append.1 hx with h | h
        · exact hrev x h
        · rw [List.mem_singleton.1 h]; exact hr
      · rw [hstep, List.map_append, List.head?_append, hf]
        rfl
      · rw [hstep, List.map_append]
        exact List.getLast?_concat _
      · rw [hstep]
        simp [hc]
      · rw [← happ]; exact hinc
    · have hstep : o.step e =
          { o with FirstRevPrime := e.Prime, RevStartAzm := e.Azimuth, LastRev := e.Revs,
                   LastPrime := e.Prime, RevCount := 0 + 1 } := by
        simp [PrimeRevSizeOutput.step, hr]
      have hrows : PrimeRevSizeOutput.rows o (e :: rest) =
          o.row :: PrimeRevSizeOutput.rows (o.step e) rest := by
        simp [PrimeRevSizeOutput.rows, hr]
      have hpost : ∀ y ∈ e :: rest, y.Revs ≠ o.LastRev := by
        intro y hy hyr
        obtain ⟨x, hx⟩ := List.exists_mem_of_ne_nil pre hne
        have h1 : o.LastRev ≤ e.Revs := by
          rw [← hrev x hx]
          exact hinc.revs_le hx (List.mem_cons_self _ _)
        have h2 : e.Revs ≤ y.Revs := by
          rcases List.mem_cons.1 hy with h | h
          · rw [h]
          · have happ : pre ++ e :: rest = (pre ++ [e]) ++ rest := by simp
            rw [happ] at hinc
            exact hinc.revs_le (List.mem_append_right _ (List.mem_singleton.2 rfl)) h
        omega
      have htail := ih [e] (o.step e) (by simp)
        (by intro x hx; rw [hstep, List.mem_singleton.1 hx])
        (by rw [hstep]; rfl) (by rw [hstep]; rfl) (by rw [hstep]; rfl) hinc.append_right
      rw [hrows, List.map_cons, htail, intColumns_row,
        expectedRows_split pre (e :: rest) o.LastRev o.FirstRevPrime o.LastPrime hne
          hinc.append_left hrev hpost hf hl, hc]
      rfl

theorem IncreasingPrimes.revs_increasing {es : List ExtendedPrimeMessage}
    (h : IncreasingPrimes es) :
    ((es.map (fun e => e.Revs)).dedup).Sorted (fun a b => a < b) := by
  have hle : (es.map (fun e => e.Revs)).Pairwise (fun a b => a ≤ b) := by
    obtain ⟨h1, h2, _⟩ := h
    rw [List.pairwise_map] at h1 ⊢
    refine List.Pairwise.imp_of_mem ?_ h1
    intro a b ha hb hab
    rw [h2 a ha, h2 b hb]
    exact Nat.div_le_div_right (le_of_lt hab)
  exact List.Sorted.lt_of_le (hle.sublist (List.dedup_sublist _)) (List.nodup_dedup _)

/-- C2: PrimeRevSizeOutput writes one entry per prime revolution. For every
non-empty sequence of ExtendedPrime messages delivered between Start and Stop
to a freshly constructed PrimeRevSizeOutput, whose primes are strictly
increasing (and fit a `uint64`), whose first prime is 2 and whose Revs field
equals Prime/360, the worker does not panic, the first text written is the
header, and the data rows written after it (while handling the messages and
on Stop) are exactly one per distinct Revs value of the sequence, in
increasing order of Revs, with the integer columns: that Revs value, the
smallest prime received in that revolution, the largest minus the smallest
prime received in it, and the number of messages received in it. -/
theorem rev_size_output_one_row_per_revolution (proc : Process) (filename : String)
    (start stop : Message) (ms : List Message)
    (hstart : start.MsgType = MessageTypeStart) (hstop : stop.MsgType = MessageTypeStop)
    (hms : ∀ m ∈ ms, m.MsgType = TypeExtendedPrime ∧
      ∃ e, m.Value = Value.extendedPrimeMessage e)
    (hfirst : ((ms.filterMap extendedPayload).map (fun e => e.Prime)).head? = some 2)
    (hinc : IncreasingPrimes (ms.filterMap extendedPayload)) :
    (runHandler (PrimeRevSizeOutput.Handle proc) (NewPrimeRevSizeOutput filename)
      (start :: (ms ++ [stop]))).panicked = false ∧
    (written (runHandler (PrimeRevSizeOutput.Handle proc) (NewPrimeRevSizeOutput filename)
      (start :: (ms ++ [stop]))).effects).head? =
        some (Text.lit "rev,start,span,azm,count\n") ∧
    ((written (runHandler (PrimeRevSizeOutput.Handle proc) (NewPrimeRevSizeOutput filename)
      (start :: (ms ++ [stop]))).effects).tail).map intColumns =
        (expectedRows (ms.filterMap extendedPayload)).map some ∧
    (expectedRows (ms.filterMap extendedPayload)).map (fun r => r.rev) =
      ((ms.filterMap extendedPayload).map (fun e => e.Revs)).dedup ∧
    ((expectedRows (ms.filterMap extendedPayload)).map (fun r => r.rev)).Sorted
      (fun a b => a < b) := by
  have hs : PrimeRevSizeOutput.Handle proc (NewPrimeRevSizeOutput filename) start =
      { handler := NewPrimeRevSizeOutput filename,
        effects :=
          [Effect.log "[%s] - Starting..." [FmtArg.str proc.Name],
           Effect.log "[%s] - Writing output header..." [FmtArg.str proc.Name],
           Effect.write (Text.lit "rev,start,span,azm,count\n")],
        panicked := false } := by
    simp [PrimeRevSizeOutput.Handle, hstart]
  obtain ⟨r1, r2⟩ := PrimeRevSizeOutput.run_extended proc stop hstop ms hms
    (NewPrimeRevSizeOutput filename)
  have hrevs : (expectedRows (ms.filterMap extendedPayload)).map (fun r => r.rev) =
      ((ms.filterMap extendedPayload).map (fun e => e.Revs)).dedup := by
    unfold expectedRows
    rw [List.map_map]
    conv_rhs => rw [← List.map_id (((ms.filterMap extendedPayload).map
      (fun e => e.Revs)).dedup)]
    apply List.map_congr_left
    intro a _
    rfl
  have hrows : (PrimeRevSizeOutput.rows (NewPrimeRevSizeOutput filename)
      (ms.filterMap extendedPayload)).map intColumns =
      (expectedRows (ms.filterMap extendedPayload)).map some := by
    obtain ⟨t, ht⟩ := List.head?_eq_some_iff.1 hfirst
    cases hes : ms.filterMap extendedPayload with
    | nil => rw [hes] at ht; simp at ht
    | cons e rest =>
      rw [hes] at hinc hfirst
      have hp : e.Prime = 2 := by simpa using hfirst
      have hr : e.Revs = 0 := by
        rw [hinc.2.1 e (List.mem_cons_self _ _), hp]
      have hstep : (NewPrimeRevSizeOutput filename).step e =
          { NewPrimeRevSizeOutput filename with LastPrime := e.Prime, RevCount := 0 + 1 } := by
        simp [PrimeRevSizeOutput.step, NewPrimeRevSizeOutput, hr]
      have hrw : PrimeRevSizeOutput.rows (NewPrimeRevSizeOutput filename) (e :: rest) =
          PrimeRevSizeOutput.rows ((NewPrimeRevSizeOutput filename).step e) rest := by
        simp [PrimeRevSizeOutput.rows, NewPrimeRevSizeOutput, hr]
      rw [hrw]
      exact PrimeRevSizeOutput.rows_spec rest [e] _ (by simp)
        (by intro x hx; rw [hstep, List.mem_singleton.1 hx, hr]; rfl)
        (by rw [hstep]; simp [NewPrimeRevSizeOutput, hp])
        (by rw [hstep]; rfl) (by rw [hstep]; rfl) hinc
  have hrun : written (runHandler (PrimeRevSizeOutput.Handle proc)
      (NewPrimeRevSizeOutput filename) (start :: (ms ++ [stop]))).effects =
      Text.lit "rev,start,span,azm,count\n" ::
        PrimeRevSizeOutput.rows (NewPrimeRevSizeOutput filename)
          (ms.filterMap extendedPayload) := by
    rw [runHandler_cons, hs]
    simp only [Bool.false_eq_true, if_false]
    rw [written_append, r2]
    rfl
  refine ⟨?_, ?_, ?_, hrevs, ?_⟩
  · rw [runHandler_cons, hs]
    simpa using r1
  · rw [hrun]; rfl
  · rw [hrun]; exact hrows
  · rw [hrevs]; exact hinc.revs_increasing

theorem sampleRevolutions_payloads :
    sampleRevolutions.filterMap extendedPayload =
      [payloadOf 0 2, payloadOf 1 3, payloadOf 71 359, payloadOf 72 367, payloadOf 73 373,
       payloadOf 128 727] := by
  simp [sampleRevolutions, extendedOf, extendedPayload]

/-- C2 at the primes 2, 3, 359, 367, 373, 727. -/
theorem rev_size_output_one_row_per_revolution_witness :
    (∀ m ∈ sampleRevolutions, m.MsgType = TypeExtendedPrime ∧
      ∃ e, m.Value = Value.extendedPrimeMessage e) ∧
    ((sampleRevolutions.filterMap extendedPayload).map (fun e => e.Prime)).head? = some 2 ∧
    IncreasingPrimes (sampleRevolutions.filterMap extendedPayload) ∧
    ((written (runHandler (PrimeRevSizeOutput.Handle ⟨"Rev Size Prime Output"⟩)
      (NewPrimeRevSizeOutput "rev_size.csv")
      (controlMessage MessageTypeStart ::
        (sampleRevolutions ++ [controlMessage MessageTypeStop]))).effects).tail).map
          intColumns =
        (expectedRows (sampleRevolutions.filterMap extendedPayload)).map some :=
  have hms : ∀ m ∈ sampleRevolutions, m.MsgType = TypeExtendedPrime ∧
      ∃ e, m.Value = Value.extendedPrimeMessage e := by
    intro m hm
    simp only [sampleRevolutions, List.mem_cons, List.mem_singleton, List.not_mem_nil,
      or_false] at hm
    rcases hm with h | h | h | h | h | h <;> rw [h] <;> exact ⟨rfl, _, rfl⟩
  have hfirst : ((sampleRevolutions.filterMap extendedPayload).map
      (fun e => e.Prime)).head? = some 2 := by
    rw [sampleRevolutions_payloads]; rfl
  have hinc : IncreasingPrimes (sampleRevolutions.filterMap extendedPayload) := by
    rw [sampleRevolutions_payloads]
    refine ⟨by decide, ?_, ?_⟩
    · intro e he
      simp only [List.mem_cons, List.mem_singleton, List.not_mem_nil, or_false] at he
      rcases he with h | h | h | h | h | h <;> rw [h] <;> rfl
    · intro e he
      simp only [List.mem_cons, List.mem_singleton, List.not_mem_nil, or_false] at he
      rcases he with h | h | h | h | h | h <;> rw [h] <;> decide
  ⟨hms, hfirst, hinc,
   (rev_size_output_one_row_per_revolution ⟨"Rev Size Prime Output"⟩ "rev_size.csv"
      (controlMessage MessageTypeStart) (controlMessage MessageTypeStop) sampleRevolutions
      rfl rfl hms hfirst hinc).2.2.1⟩

/-! ## C12: PrimeGenerator on fewer than ten primes -/

theorem PrimeGenerator.loop_panics (clock : Nat → Nat) (proc : Process) (n : Nat)
    (hn : n / 10 = 0) (q : Nat) (rest : List Nat) (i : Nat) :
    PrimeGenerator.loop clock proc n i (q :: rest) = ([], true) := by
  simp [PrimeGenerator.loop, hn]

theorem PrimeGenerator.start_panics_iff (Primes : Nat → List Nat) (clock : Nat → Nat)
    (proc : Process) (p : PrimeGenerator) (msg : Message)
    (hstart : msg.MsgType = MessageTypeStart) :
    (PrimeGenerator.Handle Primes clock proc p msg).panicked = true ↔
      (0 < (Primes p.Limit).length ∧ (Primes p.Limit).length < 10) := by
  cases hps : Primes p.Limit with
  | nil => simp [PrimeGenerator.Handle, hstart, hps, PrimeGenerator.loop]
  | cons q rest =>
    by_cases hn : (q :: rest).length / 10 = 0
    · have hlt : (q :: rest).length < 10 := by omega
      have hl := PrimeGenerator.loop_panics clock proc _ hn q rest 0
      simp only [PrimeGenerator.Handle, hstart, if_true, hps, hl]
      simp only [List.length_cons] at hlt
      simp [hlt]
    · have hge : ¬ (q :: rest).length < 10 := by omega
      have hl := (PrimeGenerator.loop_ok clock proc _ hn (q :: rest) 0).1
      simp only [PrimeGenerator.Handle, hstart, if_true, hps, hl]
      simp only [List.length_cons] at hge
      simp [hge]

/-- C12: PrimeGenerator fails on a short list of primes. Handling Start with
`Limit = 10`, for which the sieve returns the four primes 2, 3, 5, 7, ends
in a runtime panic: `numPrimes/10` is zero when the body of the loop runs for
the first prime, so `i % (numPrimes/10)` divides by zero. Nothing has been
dispatched by then and the state of the node is never set to Killed. -/
theorem generator_start_panics_on_four_primes :
    (PrimeGenerator.Handle (fun _ => [2, 3, 5, 7]) (fun i => i) ⟨"Prime Process"⟩ ⟨10⟩
      (controlMessage MessageTypeStart)).panicked = true ∧
    dispatched (PrimeGenerator.Handle (fun _ => [2, 3, 5, 7]) (fun i => i) ⟨"Prime Process"⟩
      ⟨10⟩ (controlMessage MessageTypeStart)).effects = [] ∧
    statesSet (PrimeGenerator.Handle (fun _ => [2, 3, 5, 7]) (fun i => i) ⟨"Prime Process"⟩
      ⟨10⟩ (controlMessage MessageTypeStart)).effects = [] ∧
    ([2, 3, 5, 7] : List Nat).length / 10 = 0 :=
  ⟨rfl, rfl, rfl, rfl⟩

/-! ## C13: rows of PrimeRevSizeOutput without a prime -/

theorem PrimeRevSizeOutput.rows_count_pos (es : List ExtendedPrimeMessage) :
    ∀ o : PrimeRevSizeOutput, 1 ≤ o.RevCount →
      ∀ t ∈ PrimeRevSizeOutput.rows o es, ∃ r, intColumns t = some r ∧ 1 ≤ r.count := by
  induction es with
  | nil =>
    intro o ho t ht
    simp only [PrimeRevSizeOutput.rows, List.mem_singleton] at ht
    exact ⟨_, by rw [ht, intColumns_row], ho⟩
  | cons e rest ih =>
    intro o ho t ht
    by_cases hr : e.Revs = o.LastRev
    · have hstep : o.step e = { o with LastPrime := e.Prime, RevCount := o.RevCount + 1 } := by
        simp [PrimeRevSizeOutput.step, hr]
      simp only [PrimeRevSizeOutput.rows, hr, ne_eq, not_true_eq_false, if_false] at ht
      exact ih (o.step e) (by rw [hstep]; show 1 ≤ o.RevCount + 1; omega) t ht
    · have hstep : (o.step e).RevCount = 0 + 1 := by
        simp [PrimeRevSizeOutput.step, hr]
      simp only [PrimeRevSizeOutput.rows, hr, ne_eq, not_false_eq_true, if_true,
        List.mem_cons] at ht
      rcases ht with h | h
      · exact ⟨_, by rw [h, intColumns_row], ho⟩
      · exact ih (o.step e) (by rw [hstep]; decide) t h

/-- When the first payload lies in revolution 0, every row written by a fresh
`PrimeRevSizeOutput` reports a count of at least 1. -/
theorem PrimeRevSizeOutput.fresh_rows_count_pos (filename : String)
    (e : ExtendedPrimeMessage) (rest : List ExtendedPrimeMessage) (he : e.Revs = 0) :
    ∀ t ∈ PrimeRevSizeOutput.rows (NewPrimeRevSizeOutput filename) (e :: rest),
      ∃ r, intColumns t = some r ∧ 1 ≤ r.count := by
  have hrw : PrimeRevSizeOutput.rows (NewPrimeRevSizeOutput filename) (e :: rest) =
      PrimeRevSizeOutput.rows ((NewPrimeRevSizeOutput filename).step e) rest := by
    simp [PrimeRevSizeOutput.rows, NewPrimeRevSizeOutput, he]
  have hc : ((NewPrimeRevSizeOutput filename).step e).RevCount = 0 + 1 := by
    simp [PrimeRevSizeOutput.step, NewPrimeRevSizeOutput, he]
  rw [hrw]
  exact PrimeRevSizeOutput.rows_count_pos rest _ (by rw [hc]; decide)

/-- C13: PrimeRevSizeOutput writes a row for a revolution without a prime. A
freshly constructed PrimeRevSizeOutput that receives Start and Stop with no
message in between writes, after the header, the data row of revolution 0
with start 2, span 0 and count 0; and one whose only message is the prime 367
of revolution 1 writes that same row with count 0 before the row of
revolution 1. -/
theorem rev_size_output_writes_empty_revolution :
    ((written (runHandler (PrimeRevSizeOutput.Handle ⟨"Rev Size Prime Output"⟩)
      (NewPrimeRevSizeOutput "rev_size.csv")
      [controlMessage MessageTypeStart, controlMessage MessageTypeStop]).effects).tail).map
        intColumns =
      [some { rev := 0, start := 2, span := 0, count := 0 }] ∧
    ((written (runHandler (PrimeRevSizeOutput.Handle ⟨"Rev Size Prime Output"⟩)
      (NewPrimeRevSizeOutput "rev_size.csv")
      [controlMessage MessageTypeStart, extendedOf 72 367,
       controlMessage MessageTypeStop]).effects).tail).map intColumns =
      [some { rev := 0, start := 2, span := 0, count := 0 },
       some { rev := 1, start := 367, span := 0, count := 1 }] :=
  ⟨rfl, rfl⟩

/-! ## C11: fan-out of Dispatch -/

theorem dproc.ProcessList.Dispatch_eq_map (l : ProcessList) (msg : Message) :
    ProcessList.Dispatch l msg = l.map (receive [msg]) := by
  induction l with
  | nil => rfl
  | cons m rest ih => simp [ProcessList.Dispatch, receive, ih]

theorem receive_lifecycle (msgs : List Message) (m : Member) :
    (receive msgs m).Lifecycle = m.Lifecycle := by
  unfold receive
  split <;> rfl

theorem receive_receive (xs ys : List Message) (m : Member) :
    receive ys (receive xs m) = receive (xs ++ ys) m := by
  unfold receive
  by_cases h : m.Lifecycle.isLive = true
  · simp [h, List.append_assoc]
  · simp [h]

theorem receive_nil (m : Member) : receive [] m = m := by
  unfold receive
  split
  · simp
  · rfl

theorem dproc.ProcessList.foldl_Dispatch (msgs : List Message) :
    ∀ l : ProcessList, msgs.foldl ProcessList.Dispatch l = l.map (receive msgs) := by
  induction msgs with
  | nil =>
    intro l
    simp only [List.foldl_nil]
    conv_lhs => rw [← List.map_id l]
    apply List.map_congr_left
    intro m _
    exact (receive_nil m).symm
  | cons msg rest ih =>
    intro l
    rw [List.foldl_cons, ih, ProcessList.Dispatch_eq_map, List.map_map]
    apply List.map_congr_left
    intro m _
    simp only [Function.comp]
    rw [receive_receive]
    rfl

theorem deliverDispatches_eq_foldl (es : List Effect) :
    ∀ l : ProcessList, deliverDispatches l es = (dispatched es).foldl ProcessList.Dispatch l := by
  induction es with
  | nil => intro l; rfl
  | cons e es ih =>
    intro l
    cases e <;> simp [deliverDispatches, dispatched, ih]

/-- C11, as stated, fails for a member that has begun to stop. After the
three Prime messages of the primes 2, 3, 5 have been dispatched to a running
child and a child that is Stopping, the running child has received the three
messages in order and the Stopping child has received none: not every member
of the list has received every dispatched message. -/
theorem dispatch_passes_over_stopping_member :
    [primeMessageAt (fun i => i) 0 2, primeMessageAt (fun i => i) 1 3,
      primeMessageAt (fun i => i) 2 5].foldl ProcessList.Dispatch stoppingChildren =
      [{ Name := "Prime Output", Lifecycle := State.StateRunning,
         inbox := [primeMessageAt (fun i => i) 0 2, primeMessageAt (fun i => i) 1 3,
                   primeMessageAt (fun i => i) 2 5] },
       { Name := "Rev Size Prime Output", Lifecycle := State.StateStopping, inbox := [] }] ∧
    ¬ (∀ m ∈ [primeMessageAt (fun i => i) 0 2, primeMessageAt (fun i => i) 1 3,
          primeMessageAt (fun i => i) 2 5].foldl ProcessList.Dispatch stoppingChildren,
        m.inbox = [primeMessageAt (fun i => i) 0 2, primeMessageAt (fun i => i) 1 3,
          primeMessageAt (fun i => i) 2 5]) := by
  refine ⟨rfl, ?_⟩
  intro h
  have h2 := h { Name := "Rev Size Prime Output", Lifecycle := State.StateStopping,
                 inbox := [] }
    (List.mem_cons_of_mem _ (List.mem_cons_self _ _))
  exact List.noConfusion h2

/-- C11, amended: fan-out of ProcessList.Dispatch to the live members. For
every child list and every sequence of Dispatch calls made on it by one
parent, the list keeps its members, their names and their lifecycle states;
every member that is live (Created or Running) has received, after what was
already in its inbound sequence, every dispatched message exactly once and in
the order of the calls, and a member that is Stopping or Killed has received
none of them. This holds in particular for the Dispatch calls of one call of
`Handle`. When all members are live, every member has received every
message. On an empty list Dispatch is a no-op. -/
theorem dispatch_fans_out_in_order (children : ProcessList) (msgs : List Message)
    (es : List Effect) :
    (msgs.foldl ProcessList.Dispatch children).length = children.length ∧
    (∀ (i : Nat) (h : i < children.length), children[i].Lifecycle.isLive = true →
      (msgs.foldl ProcessList.Dispatch children)[i]? =
        some { Name := children[i].Name, Lifecycle := children[i].Lifecycle,
               inbox := children[i].inbox ++ msgs }) ∧
    (∀ (i : Nat) (h : i < children.length), children[i].Lifecycle.isLive = false →
      (msgs.foldl ProcessList.Dispatch children)[i]? = some children[i]) ∧
    ((∀ m ∈ children, m.Lifecycle.isLive = true) →
      msgs.foldl ProcessList.Dispatch children =
        children.map (fun m => { m with inbox := m.inbox ++ msgs })) ∧
    deliverDispatches children es = (dispatched es).foldl ProcessList.Dispatch children ∧
    (∀ msg, ProcessList.Dispatch [] msg = []) ∧
    msgs.foldl ProcessList.Dispatch [] = [] := by
  have h := ProcessList.foldl_Dispatch msgs
  refine ⟨?_, ?_, ?_, ?_, deliverDispatches_eq_foldl es children, fun _ => rfl, ?_⟩
  · rw [h]; simp
  · intro i hi hlive
    rw [h]
    simp [hi, receive, hlive]
  · intro i hi hdead
    rw [h]
    simp [hi, receive, hdead]
  · intro hall
    rw [h]
    apply List.map_congr_left
    intro m hm
    simp [receive, hall m hm]
  · rw [h]; rfl

/-- C11 at two running children and the three Prime messages of the primes
2, 3, 5: both receive the three messages in the order of the calls. -/
theorem dispatch_fans_out_in_order_witness :
    (∀ m ∈ sampleChildren, m.Lifecycle.isLive = true) ∧
    [primeMessageAt (fun i => i) 0 2, primeMessageAt (fun i => i) 1 3,
      primeMessageAt (fun i => i) 2 5].foldl ProcessList.Dispatch sampleChildren =
      [{ Name := "Prime Output", Lifecycle := State.StateRunning,
         inbox := [primeMessageAt (fun i => i) 0 2, primeMessageAt (fun i => i) 1 3,
                   primeMessageAt (fun i => i) 2 5] },
       { Name := "Rev Size Prime Output", Lifecycle := State.StateRunning,
         inbox := [primeMessageAt (fun i => i) 0 2, primeMessageAt (fun i => i) 1 3,
                   primeMessageAt (fun i => i) 2 5] }] :=
  have hall : ∀ m ∈ sampleChildren, m.Lifecycle.isLive = true := by
    intro m hm
    simp only [sampleChildren, List.mem_cons, List.mem_singleton, List.not_mem_nil,
      or_false] at hm
    rcases hm with h | h <;> rw [h] <;> rfl
  ⟨hall, (dispatch_fans_out_in_order sampleChildren
    [primeMessageAt (fun i => i) 0 2, primeMessageAt (fun i => i) 1 3,
     primeMessageAt (fun i => i) 2 5] []).2.2.2.1 hall⟩

/-! ## C14: the tree built in main -/

theorem mainNodes_kinds (sprintf : String → List FmtArg → String) :
    (mainNodes sprintf).map (fun n => (n.handler.kind, n.Children.length)) =
      [(HandlerKind.generator, 1), (HandlerKind.extension, 9),
       (HandlerKind.output, 0), (HandlerKind.revSizeOutput, 0),
       (HandlerKind.mapper, 1), (HandlerKind.mapperOutput, 0),
       (HandlerKind.mapper, 1), (HandlerKind.mapperOutput, 0),
       (HandlerKind.mapper, 1), (HandlerKind.mapperOutput, 0),
       (HandlerKind.mapper, 1), (HandlerKind.mapperOutput, 0),
       (HandlerKind.mapper, 1), (HandlerKind.mapperOutput, 0),
       (HandlerKind.mapper, 1), (HandlerKind.mapperOutput, 0),
       (HandlerKind.mapper, 1), (HandlerKind.mapperOutput, 0)] := by
  rfl

theorem mainNodes_mapMade (sprintf : String → List FmtArg → String) :
    (mainNodes sprintf).map (fun n => n.handler.mapMade) = List.replicate 18 true := by
  rfl

theorem mainEdges_kinds (sprintf : String → List FmtArg → String) :
    (mainEdges sprintf).map (fun e => (e.1.handler.kind, e.2.handler.kind)) =
      [(HandlerKind.generator, HandlerKind.extension),
       (HandlerKind.extension, HandlerKind.output),
       (HandlerKind.extension, HandlerKind.revSizeOutput),
       (HandlerKind.extension, HandlerKind.mapper),
       (HandlerKind.extension, HandlerKind.mapper),
       (HandlerKind.extension, HandlerKind.mapper),
       (HandlerKind.extension, HandlerKind.mapper),
       (HandlerKind.extension, HandlerKind.mapper),
       (HandlerKind.extension, HandlerKind.mapper),
       (HandlerKind.extension, HandlerKind.mapper),
       (HandlerKind.mapper, HandlerKind.mapperOutput),
       (HandlerKind.mapper, HandlerKind.mapperOutput),
       (HandlerKind.mapper, HandlerKind.mapperOutput),
       (HandlerKind.mapper, HandlerKind.mapperOutput),
       (HandlerKind.mapper, HandlerKind.mapperOutput),
       (HandlerKind.mapper, HandlerKind.mapperOutput),
       (HandlerKind.mapper, HandlerKind.mapperOutput)] := by
  rfl

theorem PrimeGenerator.loop_dispatches_prime (clock : Nat → Nat) (proc : Process) (n : Nat)
    (ps : List Nat) (i : Nat) :
    ∀ d ∈ dispatched (PrimeGenerator.loop clock proc n i ps).1,
      d.MsgType = TypePrime ∧ ∃ m, d.Value = Value.primeMessage m := by
  induction ps generalizing i with
  | nil => simp [PrimeGenerator.loop, dispatched]
  | cons q rest ih =>
    simp only [PrimeGenerator.loop]
    split
    · simp [dispatched]
    · intro d hd
      rw [dispatched_append] at hd
      rcases List.mem_append.1 hd with h | h
      · split at h <;> simp [dispatched] at h
      · simp only [dispatched, List.mem_cons] at h
        rcases h with h | h
        · rw [h]; exact ⟨rfl, _, rfl⟩
        · exact ih (i + 1) d h

theorem PrimeGenerator.dispatches_prime (Primes : Nat → List Nat) (clock : Nat → Nat)
    (proc : Process) (p : PrimeGenerator) (msg : Message) :
    ∀ d ∈ dispatched (PrimeGenerator.Handle Primes clock proc p msg).effects,
      d.MsgType = TypePrime ∧ ∃ m, d.Value = Value.primeMessage m := by
  intro d hd
  simp only [PrimeGenerator.Handle] at hd
  split at hd
  · split at hd
    · rw [dispatched_append] at hd
      rcases List.mem_append.1 hd with h | h
      · simp [dispatched] at h
      · exact PrimeGenerator.loop_dispatches_prime _ _ _ _ _ d h
    · rw [dispatched_append, dispatched_append] at hd
      rcases List.mem_append.1 hd with h | h
      · rcases List.mem_append.1 h with h | h
        · simp [dispatched] at h
        · exact PrimeGenerator.loop_dispatches_prime _ _ _ _ _ d h
      · simp [dispatched] at h
  · simp [dispatched] at hd

theorem PrimeExtensionProcess.dispatches_extended (now : Nat) (proc : Process)
    (p : PrimeExtensionProcess) (msg : Message) :
    ∀ d ∈ dispatched (PrimeExtensionProcess.Handle now proc p msg).effects,
      d.MsgType = TypeExtendedPrime ∧ ∃ e, d.Value = Value.extendedPrimeMessage e := by
  intro d hd
  simp only [PrimeExtensionProcess.Handle] at hd
  repeat' split at hd
  all_goals simp [dispatched] at hd
  all_goals rw [hd]; exact ⟨rfl, _, rfl⟩

theorem PrimeMapperProcess.dispatches_mapKey (now : Nat) (proc : Process)
    (p : PrimeMapperProcess) (msg : Message) :
    ∀ d ∈ dispatched (PrimeMapperProcess.Handle now proc p msg).effects,
      d.MsgType = TypeMapKey ∧ ∃ k, d.Value = Value.string k := by
  intro d hd
  simp only [PrimeMapperProcess.Handle] at hd
  repeat' split at hd
  all_goals simp [dispatched] at hd
  all_goals rw [hd]; exact ⟨rfl, _, rfl⟩

theorem PrimeExtensionProcess.accepts_prime (now : Nat) (proc : Process)
    (c : PrimeExtensionProcess) (d : Message) (ht : d.MsgType = TypePrime)
    (hv : ∃ m, d.Value = Value.primeMessage m) :
    (PrimeExtensionProcess.Handle now proc c d).panicked = false ∧
    reportsUnknownType (PrimeExtensionProcess.Handle now proc c d).effects = false := by
  have h1 : ¬ (TypePrime = MessageTypeStart) := by decide
  have h2 : ¬ (TypePrime = MessageTypeStop) := by decide
  obtain ⟨m, hm⟩ := hv
  obtain ⟨digit, hdigit⟩ := lastDigit_isSome m.Prime
  simp [PrimeExtensionProcess.Handle, ht, hm, h1, h2, hdigit, reportsUnknownType]

theorem PrimeMapperProcess.mapper_accepts_extended (now : Nat) (proc : Process)
    (c : PrimeMapperProcess) (d : Message) (ht : d.MsgType = TypeExtendedPrime)
    (hv : ∃ e, d.Value = Value.extendedPrimeMessage e) :
    (PrimeMapperProcess.Handle now proc c d).panicked = false ∧
    reportsUnknownType (PrimeMapperProcess.Handle now proc c d).effects = false := by
  have h1 : ¬ (TypeExtendedPrime = MessageTypeStart) := by decide
  have h2 : ¬ (TypeExtendedPrime = MessageTypeStop) := by decide
  obtain ⟨e, he⟩ := hv
  simp [PrimeMapperProcess.Handle, ht, he, h1, h2, reportsUnknownType]

theorem PrimeOutput.output_accepts_extended (proc : Process)
    (c : PrimeOutput) (d : Message) (ht : d.MsgType = TypeExtendedPrime)
    (hv : ∃ e, d.Value = Value.extendedPrimeMessage e) :
    (PrimeOutput.Handle proc c d).panicked = false ∧
    reportsUnknownType (PrimeOutput.Handle proc c d).effects = false := by
  have h1 : ¬ (TypeExtendedPrime = MessageTypeStart) := by decide
  obtain ⟨e, he⟩ := hv
  simp [PrimeOutput.Handle, ht, he, h1, reportsUnknownType]

theorem PrimeRevSizeOutput.revSize_accepts_extended (proc : Process)
    (c : PrimeRevSizeOutput) (d : Message) (ht : d.MsgType = TypeExtendedPrime)
    (hv : ∃ e, d.Value = Value.extendedPrimeMessage e) :
    (PrimeRevSizeOutput.Handle proc c d).panicked = false ∧
    reportsUnknownType (PrimeRevSizeOutput.Handle proc c d).effects = false := by
  obtain ⟨e, he⟩ := hv
  rw [PrimeRevSizeOutput.handle_extended proc c d e ht he]
  refine ⟨rfl, ?_⟩
  by_cases hr : e.Revs = c.LastRev
  · simp [hr, reportsUnknownType]
  · simp [hr, reportsUnknownType]

theorem PrimeMapperOutput.accepts_mapKey (iter : List (String × Int) → List (String × Int))
    (proc : Process) (c : PrimeMapperOutput) (d : Message) (ht : d.MsgType = TypeMapKey)
    (hv : ∃ k, d.Value = Value.string k) (hmap : c.Data.isSome = true) :
    (PrimeMapperOutput.Handle iter proc c d).panicked = false ∧
    reportsUnknownType (PrimeMapperOutput.Handle iter proc c d).effects = false ∧
    (PrimeMapperOutput.Handle iter proc c d).handler.Data.isSome = true := by
  have h1 : ¬ (TypeMapKey = MessageTypeStart) := by decide
  obtain ⟨k, hk⟩ := hv
  obtain ⟨data, hdata⟩ := Option.isSome_iff_exists.1 hmap
  simp [PrimeMapperOutput.Handle, ht, hk, h1, hdata, reportsUnknownType]

theorem compatible_generator_extension (Primes : Nat → List Nat) (clock : Nat → Nat)
    (now : Nat) (iter : List (String × Int) → List (String × Int))
    (parentProc childProc : Process) :
    Compatible Primes clock now iter parentProc childProc
      HandlerKind.generator HandlerKind.extension := by
  intro p c msg hp hc _ d hd
  cases p <;> simp [Handler.kind] at hp
  cases c <;> simp [Handler.kind] at hc
  simp only [Handler.Handle] at hd ⊢
  obtain ⟨ht, hv⟩ := PrimeGenerator.dispatches_prime _ _ _ _ _ d hd
  obtain ⟨a1, a2⟩ := PrimeExtensionProcess.accepts_prime now childProc _ d ht hv
  exact ⟨a1, a2, rfl⟩

theorem compatible_extension_output (Primes : Nat → List Nat) (clock : Nat → Nat)
    (now : Nat) (iter : List (String × Int) → List (String × Int))
    (parentProc childProc : Process) :
    Compatible Primes clock now iter parentProc childProc
      HandlerKind.extension HandlerKind.output := by
  intro p c msg hp hc _ d hd
  cases p <;> simp [Handler.kind] at hp
  cases c <;> simp [Handler.kind] at hc
  simp only [Handler.Handle] at hd ⊢
  obtain ⟨ht, hv⟩ := PrimeExtensionProcess.dispatches_extended _ _ _ _ d hd
  obtain ⟨a1, a2⟩ := PrimeOutput.output_accepts_extended childProc _ d ht hv
  exact ⟨a1, a2, rfl⟩

theorem compatible_extension_revSizeOutput (Primes : Nat → List Nat) (clock : Nat → Nat)
    (now : Nat) (iter : List (String × Int) → List (String × Int))
    (parentProc childProc : Process) :
    Compatible Primes clock now iter parentProc childProc
      HandlerKind.extension HandlerKind.revSizeOutput := by
  intro p c msg hp hc _ d hd
  cases p <;> simp [Handler.kind] at hp
  cases c <;> simp [Handler.kind] at hc
  simp only [Handler.Handle] at hd ⊢
  obtain ⟨ht, hv⟩ := PrimeExtensionProcess.dispatches_extended _ _ _ _ d hd
  obtain ⟨a1, a2⟩ := PrimeRevSizeOutput.revSize_accepts_extended childProc _ d ht hv
  exact ⟨a1, a2, rfl⟩

theorem compatible_extension_mapper (Primes : Nat → List Nat) (clock : Nat → Nat)
    (now : Nat) (iter : List (String × Int) → List (String × Int))
    (parentProc childProc : Process) :
    Compatible Primes clock now iter parentProc childProc
      HandlerKind.extension HandlerKind.mapper := by
  intro p c msg hp hc _ d hd
  cases p <;> simp [Handler.kind] at hp
  cases c <;> simp [Handler.kind] at hc
  simp only [Handler.Handle] at hd ⊢
  obtain ⟨ht, hv⟩ := PrimeExtensionProcess.dispatches_extended _ _ _ _ d hd
  obtain ⟨a1, a2⟩ := PrimeMapperProcess.mapper_accepts_extended now childProc _ d ht hv
  exact ⟨a1, a2, rfl⟩

theorem compatible_mapper_mapperOutput (Primes : Nat → List Nat) (clock : Nat → Nat)
    (now : Nat) (iter : List (String × Int) → List (String × Int))
    (parentProc childProc : Process) :
    Compatible Primes clock now iter parentProc childProc
      HandlerKind.mapper HandlerKind.mapperOutput := by
  intro p c msg hp hc hm d hd
  cases p <;> simp [Handler.kind] at hp
  cases c <;> simp [Handler.kind] at hc
  simp only [Handler.Handle] at hd ⊢
  simp only [Handler.mapMade] at hm ⊢
  obtain ⟨ht, hv⟩ := PrimeMapperProcess.dispatches_mapKey _ _ _ _ d hd
  exact PrimeMapperOutput.accepts_mapKey iter childProc _ d ht hv hm

/-- C14: the tree wired in main is type-compatible along every edge. For
every parent-child edge of the process tree built in `main`, every state of
the parent's handler and every inbound message, each message the parent's
`Handle` dispatches is handled by the child's handler, in every state of it
in which a mapper output still has its map, without a panic (so the payload
decoding succeeds) and without reaching the default branch of the `switch`
(so the child has a case for the type); the map is there in every node as
constructed and stays there. Every output-writer node of the tree is a leaf
with an empty child list, and the tree has 18 nodes. -/
theorem main_tree_type_compatible (sprintf : String → List FmtArg → String)
    (Primes : Nat → List Nat) (clock : Nat → Nat) (now : Nat)
    (iter : List (String × Int) → List (String × Int)) (parentProc childProc : Process) :
    (∀ e ∈ mainEdges sprintf, ∀ (p c : Handler) (msg : Message),
      p.kind = e.1.handler.kind → c.kind = e.2.handler.kind → c.mapMade = true →
      ∀ d ∈ dispatched (Handler.Handle Primes clock now iter parentProc p msg).effects,
        (Handler.Handle Primes clock now iter childProc c d).panicked = false ∧
        reportsUnknownType
          (Handler.Handle Primes clock now iter childProc c d).effects = false ∧
        (Handler.Handle Primes clock now iter childProc c d).handler.mapMade = true) ∧
    (∀ n ∈ mainNodes sprintf, n.handler.mapMade = true) ∧
    (∀ n ∈ mainNodes sprintf, n.handler.kind.isOutputWriter = true → n.Children = []) ∧
    (∀ e ∈ mainEdges sprintf, e.1.handler.kind.isOutputWriter = false) ∧
    (mainNodes sprintf).length = 18 ∧ (mainEdges sprintf).length = 17 := by
  have hk := mainEdges_kinds sprintf
  have hn := mainNodes_kinds sprintf
  refine ⟨?_, ?_, ?_, ?_, ?_, ?_⟩
  · intro e he
    have hmem := List.mem_map_of_mem (fun e => (e.1.handler.kind, e.2.handler.kind)) he
    rw [hk] at hmem
    simp only [List.mem_cons, Prod.mk.injEq, List.mem_singleton, List.not_mem_nil,
      or_false] at hmem
    intro p c msg hp hc
    rcases hmem with h | h | h | h | h | h | h | h | h | h | h | h | h | h | h | h | h <;>
      rw [h.1] at hp <;> rw [h.2] at hc
    · exact compatible_generator_extension _ _ _ _ _ _ p c msg hp hc
    · exact compatible_extension_output _ _ _ _ _ _ p c msg hp hc
    · exact compatible_extension_revSizeOutput _ _ _ _ _ _ p c msg hp hc
    · exact compatible_extension_mapper _ _ _ _ _ _ p c msg hp hc
    · exact compatible_extension_mapper _ _ _ _ _ _ p c msg hp hc
    · exact compatible_extension_mapper _ _ _ _ _ _ p c msg hp hc
    · exact compatible_extension_mapper _ _ _ _ _ _ p c msg hp hc
    · exact compatible_extension_mapper _ _ _ _ _ _ p c msg hp hc
    · exact compatible_extension_mapper _ _ _ _ _ _ p c msg hp hc
    · exact compatible_extension_mapper _ _ _ _ _ _ p c msg hp hc
    · exact compatible_mapper_mapperOutput _ _ _ _ _ _ p c msg hp hc
    · exact compatible_mapper_mapperOutput _ _ _ _ _ _ p c msg hp hc
    · exact compatible_mapper_mapperOutput _ _ _ _ _ _ p c msg hp hc
    · exact compatible_mapper_mapperOutput _ _ _ _ _ _ p c msg hp hc
    · exact compatible_mapper_mapperOutput _ _ _ _ _ _ p c msg hp hc
    · exact compatible_mapper_mapperOutput _ _ _ _ _ _ p c msg hp hc
    · exact compatible_mapper_mapperOutput _ _ _ _ _ _ p c msg hp hc
  · intro n hnode
    have hmem := List.mem_map_of_mem (fun n => n.handler.mapMade) hnode
    rw [mainNodes_mapMade] at hmem
    exact List.eq_of_mem_replicate hmem
  · intro n hnode hw
    have hmem := List.mem_map_of_mem (fun n => (n.handler.kind, n.Children.length)) hnode
    rw [hn] at hmem
    simp only [List.mem_cons, Prod.mk.injEq, List.mem_singleton, List.not_mem_nil,
      or_false] at hmem
    apply List.eq_nil_of_length_eq_zero
    rcases hmem with h | h | h | h | h | h | h | h | h | h | h | h | h | h | h | h | h | h <;>
      first
      | exact h.2
      | (rw [h.1] at hw; exact absurd hw (by decide))
  · intro e he
    have hmem := List.mem_map_of_mem (fun e => (e.1.handler.kind, e.2.handler.kind)) he
    rw [hk] at hmem
    simp only [List.mem_cons, Prod.mk.injEq, List.mem_singleton, List.not_mem_nil,
      or_false] at hmem
    rcases hmem with h | h | h | h | h | h | h | h | h | h | h | h | h | h | h | h | h <;>
      rw [h.1] <;> rfl
  · have := congrArg List.length hn
    simpa using this
  · have := congrArg List.length hk
    simpa using this

/-- C14 at the edge from the prime generator to the prime extension: the
first message the generator dispatches on Start, for a sieve that returns the
ten primes below 30, is handled by a fresh PrimeExtensionProcess without a
panic and not in its default branch. -/
theorem main_tree_type_compatible_witness :
    (Handler.Handle (fun _ => [2, 3, 5, 7, 11, 13, 17, 19, 23, 29]) (fun i => i) 0
      (fun d => d) ⟨"Prime Extension"⟩
      (Handler.extension { PreviousPrime := { Index := 0, Prime := 0 }, PreviousAzm := 0 })
      (primeMessageAt (fun i => i) 0 2)).panicked = false ∧
    reportsUnknownType
      (Handler.Handle (fun _ => [2, 3, 5, 7, 11, 13, 17, 19, 23, 29]) (fun i => i) 0
        (fun d => d) ⟨"Prime Extension"⟩
        (Handler.extension { PreviousPrime := { Index := 0, Prime := 0 }, PreviousAzm := 0 })
        (primeMessageAt (fun i => i) 0 2)).effects = false ∧
    (mainNodes (fun _ _ => "")).length = 18 :=
  have h := main_tree_type_compatible (fun _ _ => "")
    (fun _ => [2, 3, 5, 7, 11, 13, 17, 19, 23, 29]) (fun i => i) 0 (fun d => d)
    ⟨"Prime Process"⟩ ⟨"Prime Extension"⟩
  have hc := h.1 _ (List.Mem.head _) (Handler.generator { Limit := 30 })
    (Handler.extension { PreviousPrime := { Index := 0, Prime := 0 }, PreviousAzm := 0 })
    (controlMessage MessageTypeStart) rfl rfl rfl (primeMessageAt (fun i => i) 0 2)
    (List.Mem.head _)
  ⟨hc.1, hc.2.1, h.2.2.2.2.1⟩
